import Mathlib

/-!
Verification of the PUF-based IoT provisioning simulator core
(`server/src/simulation.ts`, `server/src/types.ts`, `server/src/index.ts`).

The development shallowly embeds the simulation core in Lean: pure
TypeScript functions become Lean functions on `Nat` / `List Nat` / `String`;
the mutable session object becomes explicit state passing; randomness
(random challenge bytes, random CRP index, Diffie-Hellman key material,
IVs, certificates) becomes explicit parameters; thrown JS exceptions
become `Except` values paired with the session as mutated up to the
throw point.  External cryptographic primitives used by the code
(SHA-256, AES-256-GCM) are implemented concretely following their
standards (FIPS 180-4, FIPS 197, NIST SP 800-38D) so that every
definition is executable.
-/

namespace PufSim

/-! ## Byte-level utilities -/

/-- Big-endian 4-byte encoding of a 32-bit value
(`Buffer.writeUInt32BE` in the source). -/
def bytesBE4 (n : Nat) : List Nat :=
  [n / 2 ^ 24 % 256, n / 2 ^ 16 % 256, n / 2 ^ 8 % 256, n % 256]

/-- Big-endian 8-byte encoding of a 64-bit value (SHA-256 length field). -/
def bytesBE8 (n : Nat) : List Nat :=
  [n / 2 ^ 56 % 256, n / 2 ^ 48 % 256, n / 2 ^ 40 % 256, n / 2 ^ 32 % 256,
   n / 2 ^ 24 % 256, n / 2 ^ 16 % 256, n / 2 ^ 8 % 256, n % 256]

/-- Digit recursion for `natToBytesBE`, structural on a fuel bound. -/
def natToBytesBEAux : Nat → Nat → List Nat
  | 0, _ => []
  | fuel + 1, n =>
    if n = 0 then [] else natToBytesBEAux fuel (n / 256) ++ [n % 256]

/-- Minimal big-endian byte encoding of a natural number (the byte content
of a Node.js `Buffer` holding the number, used for DH values). -/
def natToBytesBE (n : Nat) : List Nat := natToBytesBEAux (n + 1) n

/-- The sixteen lowercase hex digit characters. -/
def hexDigitChars : List Char := "0123456789abcdef".toList

/-- Lowercase hex digit for a value below 16. -/
def hexDigit (n : Nat) : Char := hexDigitChars.getD n '0'

/-- Lowercase hex string of a byte list (`Buffer.toString('hex')`). -/
def hexOfBytes (bytes : List Nat) : String :=
  ⟨bytes.flatMap fun b => [hexDigit (b / 16), hexDigit (b % 16)]⟩

/-- Hex string of a natural number, as Node renders a `Buffer` in hex. -/
def natToHexStr (n : Nat) : String := hexOfBytes (natToBytesBE n)

/-- Digit recursion for `hexDigitsMin`, structural on a fuel bound. -/
def hexDigitsMinAux : Nat → Nat → List Char
  | 0, _ => []
  | fuel + 1, n =>
    if n < 16 then [hexDigit n]
    else hexDigitsMinAux fuel (n / 16) ++ [hexDigit (n % 16)]

/-- Minimal hex digit list of a number (`Number.prototype.toString(16)`). -/
def hexDigitsMin (n : Nat) : List Char := hexDigitsMinAux (n + 1) n

/-- Minimal hex string of a number (`Number.prototype.toString(16)`). -/
def natToHexMin (n : Nat) : String := ⟨hexDigitsMin n⟩

/-! ## SHA-256 (FIPS 180-4), on byte lists -/

/-- 32-bit truncation. -/
def w32 (n : Nat) : Nat := n % 2 ^ 32

/-- 32-bit right rotation. -/
def rotr32 (n x : Nat) : Nat := w32 ((x >>> n) ||| (x <<< (32 - n)))

/-- SHA-256 round constants (the first 32 bits of the fractional parts
of the cube roots of the first 64 primes), written in decimal. -/
def shaK : List Nat :=
  [1116352408, 1899447441, 3049323471, 3921009573, 961987163, 1508970993,
   2453635748, 2870763221, 3624381080, 310598401, 607225278, 1426881987,
   1925078388, 2162078206, 2614888103, 3248222580, 3835390401, 4022224774,
   264347078, 604807628, 770255983, 1249150122, 1555081692, 1996064986,
   2554220882, 2821834349, 2952996808, 3210313671, 3336571891, 3584528711,
   113926993, 338241895, 666307205, 773529912, 1294757372, 1396182291,
   1695183700, 1986661051, 2177026350, 2456956037, 2730485921, 2820302411,
   3259730800, 3345764771, 3516065817, 3600352804, 4094571909, 275423344,
   430227734, 506948616, 659060556, 883997877, 958139571, 1322822218,
   1537002063, 1747873779, 1955562222, 2024104815, 2227730452, 2361852424,
   2428436474, 2756734187, 3204031479, 3329325298]

/-- SHA-256 initial hash value (the first 32 bits of the fractional
parts of the square roots of the first 8 primes), written in decimal. -/
def shaH0 : List Nat :=
  [1779033703, 3144134277, 1013904242, 2773480762, 1359893119, 2600822924,
   528734635, 1541459225]

/-- Group a byte list into big-endian 32-bit words. -/
def wordsOfBytes : List Nat → List Nat
  | b0 :: b1 :: b2 :: b3 :: rest =>
      (b0 <<< 24 ||| b1 <<< 16 ||| b2 <<< 8 ||| b3) :: wordsOfBytes rest
  | _ => []

/-- Split a byte list into big-endian 4-byte renderings of each word. -/
def bytesOfWords (ws : List Nat) : List Nat := ws.flatMap bytesBE4

/-- SHA-256 message padding: append `0x80`, zeros, and the 64-bit
bit length, reaching a multiple of 64 bytes. -/
def shaPad (msg : List Nat) : List Nat :=
  msg ++ 0x80 :: List.replicate ((64 - (msg.length + 9) % 64) % 64) 0
      ++ bytesBE8 (8 * msg.length)

/-- Split a list into chunks of 64 elements (the last chunk may be
short). -/
def chunks64 (l : List Nat) : List (List Nat) :=
  (List.range ((l.length + 63) / 64)).map fun i => (l.drop (64 * i)).take 64

/-- Message-schedule extension: extend the 16 block words to 64. -/
def shaSchedule (ws : Array Nat) : Array Nat :=
  (List.range 48).foldl
    (fun w _ =>
      let t := w.size
      let s0 :=
        rotr32 7 (w.getD (t - 15) 0) ^^^ rotr32 18 (w.getD (t - 15) 0) ^^^
          (w.getD (t - 15) 0 >>> 3)
      let s1 :=
        rotr32 17 (w.getD (t - 2) 0) ^^^ rotr32 19 (w.getD (t - 2) 0) ^^^
          (w.getD (t - 2) 0 >>> 10)
      w.push (w32 (w.getD (t - 16) 0 + s0 + w.getD (t - 7) 0 + s1)))
    ws

/-- One SHA-256 compression round. -/
def shaRound (st : Nat × Nat × Nat × Nat × Nat × Nat × Nat × Nat)
    (kw : Nat × Nat) : Nat × Nat × Nat × Nat × Nat × Nat × Nat × Nat :=
  let (a, b, c, d, e, f, g, h) := st
  let S1 := rotr32 6 e ^^^ rotr32 11 e ^^^ rotr32 25 e
  let ch := (e &&& f) ^^^ ((2 ^ 32 - 1 - e) &&& g)
  let t1 := w32 (h + S1 + ch + kw.1 + kw.2)
  let S0 := rotr32 2 a ^^^ rotr32 13 a ^^^ rotr32 22 a
  let mj := (a &&& b) ^^^ (a &&& c) ^^^ (b &&& c)
  let t2 := w32 (S0 + mj)
  (w32 (t1 + t2), a, b, c, w32 (d + t1), e, f, g)

/-- Compress one 64-byte block into the running hash state. -/
def shaBlock (hs : List Nat) (block : List Nat) : List Nat :=
  let ws := shaSchedule (wordsOfBytes block).toArray
  let init : Nat × Nat × Nat × Nat × Nat × Nat × Nat × Nat :=
    (hs.getD 0 0, hs.getD 1 0, hs.getD 2 0, hs.getD 3 0,
     hs.getD 4 0, hs.getD 5 0, hs.getD 6 0, hs.getD 7 0)
  let st := (shaK.zip ws.toList).foldl shaRound init
  [w32 (hs.getD 0 0 + st.1), w32 (hs.getD 1 0 + st.2.1),
   w32 (hs.getD 2 0 + st.2.2.1), w32 (hs.getD 3 0 + st.2.2.2.1),
   w32 (hs.getD 4 0 + st.2.2.2.2.1), w32 (hs.getD 5 0 + st.2.2.2.2.2.1),
   w32 (hs.getD 6 0 + st.2.2.2.2.2.2.1), w32 (hs.getD 7 0 + st.2.2.2.2.2.2.2)]

/-- SHA-256 of a byte list, producing the 32 digest bytes
(`crypto.createHash('sha256')`). -/
def sha256 (msg : List Nat) : List Nat :=
  bytesOfWords ((chunks64 (shaPad msg)).foldl shaBlock shaH0)

/-! ## PUF evaluator (`evalPUF` in `simulation.ts`) -/

/-- The PUF type enumeration (`PufType` in `types.ts`). -/
inductive PufType where
  | arbiter
  | sram
  | fallback
deriving DecidableEq, Repr

/-- The name of a PUF type, as carried by the TypeScript string union. -/
def pufTypeName : PufType → String
  | .arbiter => "arbiter"
  | .sram => "sram"
  | .fallback => "fallback"

/-- UTF-8 bytes of the PUF type name (`Buffer.from(pufType)`); the names
are ASCII so each character is one byte. -/
def pufTypeBytes (pt : PufType) : List Nat :=
  (pufTypeName pt).toList.map Char.toNat

/-- The challenge-packing loop of `evalPUF`: allocate `⌈len/8⌉` zero
bytes, then for each index `i` with `challengeBits[i] === 1`, OR bit
`7 - i % 8` into byte `i / 8`. -/
def packChallengeBytes (bits : List Nat) : List Nat :=
  (List.range bits.length).foldl
    (fun bytes i =>
      if bits.getD i 0 = 1 then
        bytes.set (i / 8) (bytes.getD (i / 8) 0 ||| 1 <<< (7 - i % 8))
      else bytes)
    (List.replicate ((bits.length + 7) / 8) 0)

/-- Source `evalPUF(challengeBits, seed, pufType)`: pack the challenge, hash
`seedBE4 ‖ pufType ‖ packed` with SHA-256, XOR-fold the 32 digest bytes,
run the 8-step reduction `parity ^= (parity >> i) & 1`, return
`parity & 1`. -/
def evalPUF (challengeBits : List Nat) (seed : Nat) (pufType : PufType) : Nat :=
  let challengeBytes := packChallengeBytes challengeBits
  let input := bytesBE4 seed ++ pufTypeBytes pufType ++ challengeBytes
  let hash := sha256 input
  let parity := hash.foldl (fun p b => p ^^^ b) 0
  let parity := (List.range 8).foldl (fun p i => p ^^^ (p >>> i &&& 1)) parity
  parity &&& 1

/-- The spec's packing (§4.1 steps 1): bits go into the minimum number of
bytes most-significant-bit first, with missing trailing bits zero, so
byte `k` is `Σ_{j<8} bits[8k+j] · 2^(7-j)` (out-of-range bits read 0). -/
def packBitsSpec (bits : List Nat) : List Nat :=
  (List.range ((bits.length + 7) / 8)).map fun k =>
    ∑ j ∈ Finset.range 8, bits.getD (8 * k + j) 0 * 2 ^ (7 - j)

/-- The spec's reference PUF algorithm (§4.1 steps 1–6, and claim C1):
pack MSB-first, hash `seed ‖ type-name ‖ packed` with SHA-256, XOR-fold
all 32 hash bytes, reduce with `acc ^= (acc >> i) & 1` for `i` in 0..7,
return `acc & 1`. -/
def evalPUFSpecRef (challengeBits : List Nat) (seed : Nat) (pufType : PufType) : Nat :=
  let challengeBytes := packBitsSpec challengeBits
  let input := bytesBE4 seed ++ pufTypeBytes pufType ++ challengeBytes
  let hash := sha256 input
  let acc := hash.foldl (fun p b => p ^^^ b) 0
  let acc := (List.range 8).foldl (fun p i => p ^^^ (p >>> i &&& 1)) acc
  acc &&& 1

/-- Source `generateChallenge(bitLength)` reading its random bytes from the
explicit `bytes` parameter: bit `i` is bit `7 - i % 8` of byte `i / 8`. -/
def generateChallenge (bytes : List Nat) (bitLength : Nat) : List Nat :=
  (List.range bitLength).map fun i => bytes.getD (i / 8) 0 >>> (7 - i % 8) &&& 1

/-! ## Equivalence of the packing loop with the spec's MSB-first packing -/

/-- ORing a power of two into a multiple of the next power is addition. -/
theorem lor_two_pow_mul (p c : Nat) :
    2 ^ (p + 1) * c ||| 2 ^ p = 2 ^ (p + 1) * c + 2 ^ p := by
  induction p generalizing c with
  | zero =>
    have h1 : 2 ^ 1 * c = Nat.bit false c := by
      simp only [Nat.bit_val, Bool.toNat_false]; ring
    have h2 : (2 : Nat) ^ 0 = Nat.bit true 0 := by
      simp only [Nat.bit_val, Bool.toNat_true]; omega
    have h3 : Nat.bit false c ||| Nat.bit true 0 = Nat.bit false c + Nat.bit true 0 := by
      rw [Nat.lor_bit]
      simp only [Nat.bit_val, Bool.toNat_false, Bool.toNat_true, Bool.or_true,
        Bool.false_or, Nat.or_zero]
    rw [← h1, ← h2] at h3
    exact h3
  | succ p ih =>
    have h1 : 2 ^ (p + 2) * c = Nat.bit false (2 ^ (p + 1) * c) := by
      simp only [Nat.bit_val, Bool.toNat_false]; ring
    have h2 : (2 : Nat) ^ (p + 1) = Nat.bit false (2 ^ p) := by
      simp only [Nat.bit_val, Bool.toNat_false]; ring
    have h3 : Nat.bit false (2 ^ (p + 1) * c) ||| Nat.bit false (2 ^ p)
        = Nat.bit false (2 ^ (p + 1) * c) + Nat.bit false (2 ^ p) := by
      rw [Nat.lor_bit, ih]
      simp only [Nat.bit_val, Bool.toNat_false, Bool.or_false]
      ring
    rw [← h1, ← h2] at h3
    exact h3

/-- Partial packed byte `k` after the packing loop has consumed the first
`m` challenge bits. -/
def pbPartial (bits : List Nat) (m k : Nat) : Nat :=
  ∑ j ∈ Finset.range 8,
    if 8 * k + j < m then bits.getD (8 * k + j) 0 * 2 ^ (7 - j) else 0

theorem pbPartial_dvd (bits : List Nat) (m : Nat) :
    2 ^ (8 - m % 8) ∣ pbPartial bits m (m / 8) := by
  apply Finset.dvd_sum
  intro j hj
  by_cases hc : 8 * (m / 8) + j < m
  · rw [if_pos hc]
    apply Dvd.dvd.mul_left
    apply pow_dvd_pow
    have h2 : 8 * (m / 8) + m % 8 = m := Nat.div_add_mod m 8
    have h3 : j < 8 := Finset.mem_range.mp hj
    omega
  · rw [if_neg hc]; exact dvd_zero _

/-- After consuming `m` bits, the packing loop's byte array is exactly the
partial-byte table. -/
theorem packFold_eq (bits : List Nat) (hb : ∀ b ∈ bits, b = 0 ∨ b = 1)
    (m : Nat) (hm : m ≤ bits.length) :
    (List.range m).foldl
      (fun bytes i =>
        if bits.getD i 0 = 1 then
          bytes.set (i / 8) (bytes.getD (i / 8) 0 ||| 1 <<< (7 - i % 8))
        else bytes)
      (List.replicate ((bits.length + 7) / 8) 0) =
    (List.range ((bits.length + 7) / 8)).map (pbPartial bits m) := by
  induction m with
  | zero =>
    apply List.ext_getElem
    · simp
    · intro i h1 h2
      simp only [List.range_zero, List.foldl_nil, List.getElem_replicate,
        List.getElem_map, List.getElem_range]
      rw [pbPartial]
      rw [Finset.sum_eq_zero]
      intro j _
      rw [if_neg (by omega)]
  | succ m ih =>
    have hmn : m < bits.length := hm
    rw [List.range_succ, List.foldl_append, List.foldl_cons, List.foldl_nil,
      ih (Nat.le_of_lt hmn)]
    have hgd : bits.getD m 0 = bits[m] := List.getD_eq_getElem bits 0 hmn
    have hdm : 8 * (m / 8) + m % 8 = m := Nat.div_add_mod m 8
    have hm8 : m % 8 < 8 := Nat.mod_lt m (by omega)
    rcases hb bits[m] (List.getElem_mem hmn) with h0 | h1
    · rw [if_neg (by rw [hgd, h0]; omega)]
      apply List.map_congr_left
      intro k _
      rw [pbPartial, pbPartial]
      apply Finset.sum_congr rfl
      intro j hj
      have hj8 : j < 8 := Finset.mem_range.mp hj
      by_cases hc : 8 * k + j < m
      · rw [if_pos hc, if_pos (by omega)]
      · by_cases he : 8 * k + j = m
        · rw [if_neg hc, if_pos (by omega), he, hgd, h0]
          simp
        · rw [if_neg hc, if_neg (by omega)]
    · rw [if_pos (by rw [hgd, h1])]
      have hB : m / 8 < (bits.length + 7) / 8 := by omega
      have hget : ((List.range ((bits.length + 7) / 8)).map (pbPartial bits m)).getD (m / 8) 0
          = pbPartial bits m (m / 8) := by
        rw [List.getD_eq_getElem _ 0 (by simp [hB])]
        simp
      rw [hget]
      have hshift : (1 : Nat) <<< (7 - m % 8) = 2 ^ (7 - m % 8) := by
        rw [Nat.shiftLeft_eq, one_mul]
      obtain ⟨c, hc⟩ := pbPartial_dvd bits m
      have hpow : 8 - m % 8 = (7 - m % 8) + 1 := by omega
      have hkey : pbPartial bits m (m / 8) ||| 1 <<< (7 - m % 8)
          = pbPartial bits m (m / 8) + 2 ^ (7 - m % 8) := by
        rw [hshift, hc, hpow, lor_two_pow_mul, ← hpow, ← hc]
      have hsplit : ∀ k, pbPartial bits (m + 1) k
          = pbPartial bits m k
            + ∑ j ∈ Finset.range 8,
                (if 8 * k + j = m then bits.getD (8 * k + j) 0 * 2 ^ (7 - j) else 0) := by
        intro k
        rw [pbPartial, pbPartial, ← Finset.sum_add_distrib]
        apply Finset.sum_congr rfl
        intro j hj
        by_cases he : 8 * k + j = m
        · rw [if_pos (by omega), if_neg (by omega), if_pos he, Nat.zero_add]
        · by_cases hc2 : 8 * k + j < m
          · rw [if_pos (by omega), if_pos hc2, if_neg he, Nat.add_zero]
          · rw [if_neg (by omega), if_neg hc2, if_neg he, Nat.add_zero]
      have hlast : ∀ k,
          (∑ j ∈ Finset.range 8,
            (if 8 * k + j = m then bits.getD (8 * k + j) 0 * 2 ^ (7 - j) else 0))
          = if k = m / 8 then bits.getD m 0 * 2 ^ (7 - m % 8) else 0 := by
        intro k
        by_cases hk : k = m / 8
        · rw [if_pos hk]
          subst hk
          rw [Finset.sum_eq_single_of_mem (m % 8) (Finset.mem_range.mpr hm8)]
          · rw [if_pos hdm, hdm]
          · intro j hj hne
            rw [if_neg (by have := Finset.mem_range.mp hj; omega)]
        · rw [if_neg hk]
          apply Finset.sum_eq_zero
          intro j hj
          rw [if_neg (by have := Finset.mem_range.mp hj; omega)]
      apply List.ext_getElem
      · simp
      · intro k hk1 hk2
        have hkB : k < (bits.length + 7) / 8 := by simpa using hk2
        simp only [List.getElem_map, List.getElem_range]
        by_cases hkm : k = m / 8
        · subst hkm
          rw [List.getElem_set_self (by simpa using hkB)]
          rw [hkey, hsplit, hlast, if_pos rfl, hgd, h1, Nat.one_mul]
        · rw [List.getElem_set_ne (Ne.symm hkm)]
          simp only [List.getElem_map, List.getElem_range]
          rw [hsplit, hlast, if_neg hkm, Nat.add_zero]

/-- The imperative packing loop computes exactly the spec's MSB-first
byte packing, whenever the challenge really is a bit sequence. -/
theorem packChallengeBytes_eq_spec (bits : List Nat)
    (hb : ∀ b ∈ bits, b = 0 ∨ b = 1) :
    packChallengeBytes bits = packBitsSpec bits := by
  rw [packChallengeBytes, packFold_eq bits hb bits.length le_rfl, packBitsSpec]
  apply List.map_congr_left
  intro k _
  rw [pbPartial]
  apply Finset.sum_congr rfl
  intro j _
  by_cases hc : 8 * k + j < bits.length
  · rw [if_pos hc]
  · rw [if_neg hc, List.getD_eq_default bits 0 (by omega), Nat.zero_mul]

/-! ## AES-256 (FIPS 197), encryption direction only
(GCM never runs the inverse cipher). -/

/-- Multiplication by `x` in GF(2^8) with the AES reduction polynomial. -/
def xtime (b : Nat) : Nat :=
  if b &&& 0x80 = 0 then b <<< 1 &&& 0xff else (b <<< 1 ^^^ 0x1b) &&& 0xff

/-- GF(2^8) multiplication. -/
def gmul (a b : Nat) : Nat :=
  (((List.range 8).foldl
    (fun st _ =>
      let (acc, x, y) := st
      (if y &&& 1 = 1 then acc ^^^ x else acc, xtime x, y >>> 1))
    ((0 : Nat), a, b))).1

/-- GF(2^8) inverse as `a^254`, by square and multiply. -/
def gpow254 (a : Nat) : Nat :=
  let a2 := gmul a a
  let a3 := gmul a2 a
  let a6 := gmul a3 a3
  let a7 := gmul a6 a
  let a14 := gmul a7 a7
  let a15 := gmul a14 a
  let a30 := gmul a15 a15
  let a60 := gmul a30 a30
  let a120 := gmul a60 a60
  let a126 := gmul a120 a6
  let a127 := gmul a126 a
  gmul a127 a127

/-- The AES S-box: multiplicative inverse (as `b^254`) followed by the
affine transformation. -/
def sbox (b : Nat) : Nat :=
  let s := gpow254 (b &&& 0xff)
  let r := fun n => (s <<< n ||| s >>> (8 - n)) &&& 0xff
  s ^^^ r 1 ^^^ r 2 ^^^ r 3 ^^^ r 4 ^^^ 0x63

/-- Apply the S-box to each byte of a 32-bit word. -/
def subWord (w : Nat) : Nat :=
  sbox (w >>> 24 &&& 0xff) <<< 24 ||| sbox (w >>> 16 &&& 0xff) <<< 16 |||
    sbox (w >>> 8 &&& 0xff) <<< 8 ||| sbox (w &&& 0xff)

/-- Rotate a 32-bit word left by one byte. -/
def rotWord (w : Nat) : Nat := (w <<< 8 ||| w >>> 24) &&& 0xffffffff

/-- AES round constant (first byte), 1-based. -/
def rconVal (j : Nat) : Nat := (List.range (j - 1)).foldl (fun a _ => xtime a) 1

/-- AES-256 key expansion: 32 key bytes to 60 round-key words. -/
def keyExpansion (key : List Nat) : List Nat :=
  (List.range 52).foldl
    (fun w i0 =>
      let i := i0 + 8
      let temp := w.getD (i - 1) 0
      let temp :=
        if i % 8 = 0 then subWord (rotWord temp) ^^^ rconVal (i / 8) <<< 24
        else if i % 8 = 4 then subWord temp
        else temp
      w ++ [w.getD (i - 8) 0 ^^^ temp])
    (wordsOfBytes key)

/-- ShiftRows on the flat 16-byte state (index `i` holds row `i % 4`,
column `i / 4`). -/
def shiftRows (s : List Nat) : List Nat :=
  (List.range 16).map fun i => s.getD (i % 4 + 4 * ((i / 4 + i % 4) % 4)) 0

/-- MixColumns on one column. -/
def mixCol (a0 a1 a2 a3 : Nat) : List Nat :=
  [gmul 2 a0 ^^^ gmul 3 a1 ^^^ a2 ^^^ a3,
   a0 ^^^ gmul 2 a1 ^^^ gmul 3 a2 ^^^ a3,
   a0 ^^^ a1 ^^^ gmul 2 a2 ^^^ gmul 3 a3,
   gmul 3 a0 ^^^ a1 ^^^ a2 ^^^ gmul 2 a3]

/-- MixColumns on the flat state. -/
def mixColumns (s : List Nat) : List Nat :=
  (List.range 4).flatMap fun c =>
    mixCol (s.getD (4 * c) 0) (s.getD (4 * c + 1) 0)
      (s.getD (4 * c + 2) 0) (s.getD (4 * c + 3) 0)

/-- XOR the round key for round `round` into the state. -/
def addRoundKey (w : List Nat) (round : Nat) (s : List Nat) : List Nat :=
  List.zipWith (· ^^^ ·) s (bytesOfWords ((w.drop (4 * round)).take 4))

/-- The AES-256 forward cipher on one 16-byte block. -/
def aes256Block (key block : List Nat) : List Nat :=
  let w := keyExpansion key
  let s := addRoundKey w 0 block
  let s := (List.range 13).foldl
    (fun s r => addRoundKey w (r + 1) (mixColumns (shiftRows (s.map sbox)))) s
  addRoundKey w 14 (shiftRows (s.map sbox))

/-! ## GCM mode (NIST SP 800-38D) for AES-256
(`aes-256-gcm` with a 96-bit IV and no additional data, as the source
uses it). -/

/-- Big-endian value of a byte list. -/
def beNat (l : List Nat) : Nat := l.foldl (fun a b => a * 256 + b) 0

/-- Big-endian 16-byte rendering of a 128-bit value. -/
def bytesBE16 (n : Nat) : List Nat :=
  (List.range 16).map fun i => n >>> (8 * (15 - i)) &&& 0xff

/-- Increment the last 32 bits of a counter block. -/
def inc32 (b : List Nat) : List Nat :=
  b.take 12 ++ bytesBE4 (beNat (b.drop 12) + 1)

/-- GF(2^128) multiplication in the GHASH bit order. -/
def gfMul128 (x y : Nat) : Nat :=
  (((List.range 128).foldl
    (fun st i =>
      let (z, v) := st
      let z := if x >>> (127 - i) &&& 1 = 1 then z ^^^ v else z
      let v := if v &&& 1 = 1 then v >>> 1 ^^^ 0xe1000000000000000000000000000000
               else v >>> 1
      (z, v))
    ((0 : Nat), y))).1

/-- Split a list into chunks of 16 elements (the last chunk may be
short). -/
def chunks16 (l : List Nat) : List (List Nat) :=
  (List.range ((l.length + 15) / 16)).map fun i => (l.drop (16 * i)).take 16

/-- GHASH over a sequence of 16-byte blocks. -/
def ghash (h : Nat) (blocks : List (List Nat)) : Nat :=
  blocks.foldl (fun y b => gfMul128 (y ^^^ beNat b) h) 0

/-- The pre-counter block for a 96-bit IV. -/
def gcmJ0 (iv : List Nat) : List Nat := iv ++ [0, 0, 0, 1]

/-- CTR keystream byte `i` for the GCM encryption of an `n`-byte message:
byte `i % 16` of `AES(K, inc32^(i/16+1)(J0))`. -/
def gcmKeystreamBytes (key iv : List Nat) (n : Nat) : List Nat :=
  (List.range n).map fun i =>
    (aes256Block key (inc32^[i / 16 + 1] (gcmJ0 iv))).getD (i % 16) 0

/-- The CTR transform of GCM: XOR the message with the keystream (the same
map encrypts and decrypts). -/
def gcmCipherBytes (key iv msg : List Nat) : List Nat :=
  List.zipWith (· ^^^ ·) msg (gcmKeystreamBytes key iv msg.length)

/-- The GCM authentication tag over a ciphertext (no additional data). -/
def gcmTag (key iv ct : List Nat) : List Nat :=
  let h := beNat (aes256Block key (List.replicate 16 0))
  let padded := ct ++ List.replicate ((16 - ct.length % 16) % 16) 0
  let lenBlock := bytesBE8 0 ++ bytesBE8 (8 * ct.length)
  let s := ghash h (chunks16 (padded ++ lenBlock))
  List.zipWith (· ^^^ ·) (bytesBE16 s) (aes256Block key (gcmJ0 iv))

/-- An encrypted payload as produced by `encrypt` in the source
(`{ciphertext, iv, tag}`), carried at byte level. -/
structure EncryptedMsg where
  ciphertext : List Nat
  iv : List Nat
  tag : List Nat
deriving DecidableEq, Repr

/-- Source `encrypt(plaintext, key)` with its random 96-bit IV passed
explicitly: AES-256-GCM ciphertext plus authentication tag. -/
def encrypt (plaintext : List Nat) (key : List Nat) (iv : List Nat) : EncryptedMsg :=
  { ciphertext := gcmCipherBytes key iv plaintext
    iv := iv
    tag := gcmTag key iv (gcmCipherBytes key iv plaintext) }

/-- Source `decrypt(ciphertext, key, iv, tag)`: verify the tag, failing like the
GCM `final()` call when it does not match, and undo the CTR transform. -/
def decrypt (ciphertext : List Nat) (key : List Nat) (iv tag : List Nat) :
    Option (List Nat) :=
  if gcmTag key iv ciphertext = tag then some (gcmCipherBytes key iv ciphertext)
  else none

/-! ## Session data model (`types.ts`) -/

/-- The spec's error taxonomy (§7); the source throws `Error(msg)` and the
kinds below classify each throw site. -/
inductive SimError where
  | notFound (msg : String)
  | invalidState (msg : String)
  | validationError (msg : String)
  | integrityError (msg : String)
  | authenticationError (msg : String)
deriving DecidableEq, Repr

/-- A challenge-response pair (`CRP` in `types.ts`). -/
structure CRP where
  challenge : List Nat
  response : Nat
deriving DecidableEq, Repr

/-- Diffie-Hellman key material (`DHKeys` in `types.ts`), all fields
optional hex strings. -/
structure DHKeys where
  devicePrivate : Option String
  devicePublic : Option String
  serverPrivate : Option String
  serverPublic : Option String
deriving DecidableEq, Repr

/-- The empty `dh: {}` object. -/
def DHKeys.empty : DHKeys := ⟨none, none, none, none⟩

/-- A simulation session (`SimulationSession` in `types.ts`). -/
structure SimulationSession where
  id : String
  deviceId : String
  pufType : PufType
  pufSeed : Nat
  numCrps : Nat
  crps : List CRP
  dh : DHKeys
  sessionKey : Option (List Nat)
  logs : List String
  provisioned : Bool
  provisionedData : Option (String × String)
deriving DecidableEq, Repr

/-- Append one timestamped entry to the session log (`appendLog`); the
timestamp string is passed explicitly. -/
def appendLog (s : SimulationSession) (ts msg : String) : SimulationSession :=
  { s with logs := s.logs ++ ["[" ++ ts ++ "] " ++ msg] }

/-- Source `.slice(0, n)` on a string. -/
def strSlice (s : String) (n : Nat) : String := ⟨s.data.take n⟩

/-- Byte view of a string, one code point per entry (models the UTF-8
transport of plaintext; the payloads here are ASCII). -/
def strBytes (s : String) : List Nat := s.data.map Char.toNat

/-- Inverse of `strBytes`. -/
def strOfBytes (l : List Nat) : String := ⟨l.map Char.ofNat⟩

/-- Source `array.join('')` over challenge bits. -/
def bitsJoin (bits : List Nat) : String := String.join (bits.map toString)

/-! ## Result values (`types.ts` response interfaces) -/

/-- Source `EnrollResponse`. -/
structure EnrollResult where
  step : String
  status : String
  crpCount : Nat
  log : List String
deriving DecidableEq, Repr

/-- Source `AuthenticateResponse`. -/
structure AuthResult where
  step : String
  status : String
  challengePreview : List Nat
  deviceResponse : Nat
  expectedResponse : Nat
  log : List String
deriving DecidableEq, Repr

/-- Source `KeyExchangeResponse`. -/
structure KeyExchangeResult where
  step : String
  status : String
  devicePublicKey : String
  serverPublicKey : String
  sessionKeyHex : String
  log : List String
deriving DecidableEq, Repr

/-- Source `ProvisionResponse`. -/
structure ProvisionResult where
  step : String
  status : String
  provisioned : Bool
  credentialsPreview : String × String
  log : List String
deriving DecidableEq, Repr

/-- Source `OperationResponse`. -/
structure OperationResult where
  step : String
  status : String
  serverToDevicePlaintext : String
  deviceToServerPlaintext : String
  log : List String
deriving DecidableEq, Repr

/-- Source `ResetResponse`. -/
structure ResetResult where
  status : String
  message : String
deriving DecidableEq, Repr

/-! ## Session manager (`simulation.ts` exported functions)

Randomness and wall-clock timestamps are explicit parameters: `ts` is the
timestamp string used for log entries, `rng i` the random bytes drawn by
iteration `i`, `idx` the random CRP index, `p g a b` the DH domain
parameters and private keys, `iv` the random GCM IV, and the certificate
and token random strings stand for the generated base64 payloads. -/

/-- The process-wide `sessions` map, as an association list keyed by
session id. -/
abbrev SessionMap := List (String × SimulationSession)

/-- The session object built by `createSession`, including its two
creation log entries. -/
def mkSession (sid ts : String) (pufSeed : Nat) (deviceId : String)
    (pufType : PufType) (numCrps : Nat) : SimulationSession :=
  appendLog
    (appendLog
      { id := sid, deviceId := deviceId, pufType := pufType,
        pufSeed := pufSeed, numCrps := numCrps, crps := [],
        dh := DHKeys.empty, sessionKey := none, logs := [],
        provisioned := false, provisionedData := none }
      ts ("Session created for device " ++ deviceId))
    ts ("PUF type: " ++ pufTypeName pufType ++ ", Seed: 0x" ++ natToHexMin pufSeed)

/-- Source `Map.prototype.set`: replace the entry in place or append a new one. -/
def mapSet (m : SessionMap) (sid : String) (s : SimulationSession) : SessionMap :=
  if m.any (fun p => p.1 == sid) then
    m.map fun p => if p.1 = sid then (sid, s) else p
  else m ++ [(sid, s)]

/-- Source `createSession(deviceId, pufType, numCrps)` with the generated session
id, seed, and timestamp explicit: store the new session and return its id. -/
def createSession (m : SessionMap) (sid ts : String) (pufSeed : Nat)
    (deviceId : String) (pufType : PufType) (numCrps : Nat) : SessionMap × String :=
  (mapSet m sid (mkSession sid ts pufSeed deviceId pufType numCrps), sid)

/-- Source `getSession(sessionId)`: look the session up, `NotFound` when absent. -/
def getSession (m : SessionMap) (sid : String) : Except SimError SimulationSession :=
  match m.lookup sid with
  | some s => .ok s
  | none => .error (.notFound ("Session " ++ sid ++ " not found"))

/-- Source `deleteSession(sessionId)`: remove the entry; absent ids are a no-op
and no error is possible. -/
def deleteSession (m : SessionMap) (sid : String) : SessionMap :=
  m.filter fun p => !(p.1 == sid)

/-- The body of one enrollment loop iteration: generate a challenge from
the iteration's random bytes, evaluate the PUF, push the CRP, and append
the iteration's log entry. -/
def enrollStep (ts : String) (rng : Nat → List Nat) (st : SimulationSession)
    (i : Nat) : SimulationSession :=
  let challenge := generateChallenge (rng i) 64
  let response := evalPUF challenge st.pufSeed st.pufType
  let st := { st with crps := st.crps ++ [⟨challenge, response⟩] }
  if i < 3 ∨ st.numCrps - 1 ≤ i then
    appendLog st ts ("  CRP " ++ toString (i + 1) ++ ": Challenge="
      ++ bitsJoin (challenge.take 8) ++ "... → Response=" ++ toString response)
  else if i = 3 then appendLog st ts "  ... (generating remaining CRPs)"
  else st

/-- Source `performEnrollment`: clear the CRP list, run `numCrps` loop
iterations, log, and report the stored CRP count. -/
def performEnrollment (ts : String) (rng : Nat → List Nat)
    (s : SimulationSession) : SimulationSession × EnrollResult :=
  let s1 := appendLog s ts "=== ENROLLMENT PHASE STARTED ==="
  let s2 := appendLog s1 ts ("Generating " ++ toString s.numCrps
    ++ " Challenge-Response Pairs...")
  let s3 := { s2 with crps := [] }
  let s4 := (List.range s.numCrps).foldl (enrollStep ts rng) s3
  let s5 := appendLog s4 ts ("✓ Successfully stored " ++ toString s4.crps.length
    ++ " CRPs in server database")
  let s6 := appendLog s5 ts "=== ENROLLMENT COMPLETE ==="
  (s6, { step := "S0_ENROLL", status := "success",
         crpCount := s6.crps.length, log := s6.logs })

/-- Source `performAuthentication` with the randomly drawn CRP index explicit:
guard on an empty CRP store, re-evaluate the PUF on the selected stored
challenge, and compare with the stored response. -/
def performAuthentication (ts : String) (idx : Nat) (s : SimulationSession) :
    SimulationSession × Except SimError AuthResult :=
  if s.crps.length = 0 then
    (s, .error (.invalidState "No CRPs available. Run enrollment first."))
  else
    let s1 := appendLog s ts "=== PUF AUTHENTICATION STARTED ==="
    let crp := s.crps.getD idx ⟨[], 0⟩
    let preview := crp.challenge.take 8
    let s2 := appendLog s1 ts ("Server: Sending challenge #" ++ toString (idx + 1)
      ++ " to device")
    let s3 := appendLog s2 ts ("  Challenge preview: " ++ bitsJoin preview ++ "...")
    let deviceResponse := evalPUF crp.challenge s.pufSeed s.pufType
    let s4 := appendLog s3 ts ("Device: PUF evaluated → " ++ toString deviceResponse)
    let s5 := appendLog s4 ts ("Server: Expected response → " ++ toString crp.response)
    let authSuccess := deviceResponse == crp.response
    let s6 :=
      if authSuccess then
        appendLog s5 ts "✓ Authentication SUCCESS - Device identity verified!"
      else appendLog s5 ts "✗ Authentication FAILED - Response mismatch!"
    let s7 := appendLog s6 ts "=== AUTHENTICATION COMPLETE ==="
    (s7, .ok { step := "S2_AUTH",
               status := if authSuccess then "success" else "error",
               challengePreview := preview, deviceResponse := deviceResponse,
               expectedResponse := crp.response, log := s7.logs })

/-- Source `performKeyExchange` with the DH domain parameters `p`, `g` and the
two ephemeral private keys `a` (device) and `b` (server) explicit.  The
public keys are `g^x mod p`, each party computes the shared secret from
the other's public key, the secrets are compared byte-for-byte (the
`IntegrityError` guard), and the session key is `SHA-256(secret)`. -/
def performKeyExchange (ts : String) (p g a b : Nat) (s : SimulationSession) :
    SimulationSession × Except SimError KeyExchangeResult :=
  let s1 := appendLog s ts "=== DIFFIE-HELLMAN KEY EXCHANGE STARTED ==="
  let devicePublic := g ^ a % p
  let serverPublic := g ^ b % p
  let s2 := { s1 with dh :=
    { devicePrivate := some (natToHexStr a)
      devicePublic := some (natToHexStr devicePublic)
      serverPrivate := some (natToHexStr b)
      serverPublic := some (natToHexStr serverPublic) } }
  let s3 := appendLog s2 ts "Device: Generated DH key pair"
  let s4 := appendLog s3 ts ("  Public key: "
    ++ strSlice (natToHexStr devicePublic) 16 ++ "...")
  let s5 := appendLog s4 ts "Server: Generated DH key pair"
  let s6 := appendLog s5 ts ("  Public key: "
    ++ strSlice (natToHexStr serverPublic) 16 ++ "...")
  let deviceShared := serverPublic ^ a % p
  let serverShared := devicePublic ^ b % p
  if natToBytesBE deviceShared ≠ natToBytesBE serverShared then
    (s6, .error (.integrityError "DH key exchange failed - shared secrets do not match!"))
  else
    let s7 := appendLog s6 ts "Device: Computed shared secret"
    let s8 := appendLog s7 ts "Server: Computed shared secret"
    let s9 := appendLog s8 ts "✓ Shared secrets match!"
    let sessionKey := sha256 (natToBytesBE deviceShared)
    let s10 := { s9 with sessionKey := some sessionKey }
    let sessionKeyHex := hexOfBytes sessionKey
    let s11 := appendLog s10 ts ("✓ Derived AES-256 session key: "
      ++ strSlice sessionKeyHex 16 ++ "...")
    let s12 := appendLog s11 ts "=== KEY EXCHANGE COMPLETE ==="
    (s12, .ok { step := "S3_DH", status := "success",
                devicePublicKey := s12.dh.devicePublic.getD "",
                serverPublicKey := s12.dh.serverPublic.getD "",
                sessionKeyHex := sessionKeyHex, log := s12.logs })

/-- Modelled from the spec (§4.5): `JSON.stringify` of the flat
credential object, as a length-prefixed serialization of its four string
fields (the JS runtime's JSON round-trip for flat string-field objects is
the identity, which is the only property the code relies on). -/
def encodeStr (s : String) : List Nat := s.data.length :: s.data.map Char.toNat

/-- Serialize the provisioning payload
`{deviceCert, token, timestamp, deviceId}`. -/
def encodeProvData (cert token timestamp deviceId : String) : List Nat :=
  encodeStr cert ++ encodeStr token ++ encodeStr timestamp ++ encodeStr deviceId

/-- Modelled from the spec (§4.5): `JSON.parse` for one serialized string
field; fails on malformed input. -/
def decodeStr (l : List Nat) : Option (String × List Nat) :=
  match l with
  | [] => none
  | n :: rest =>
    if n ≤ rest.length then some (⟨(rest.take n).map Char.ofNat⟩, rest.drop n)
    else none

/-- Parse the provisioning payload back into its four string fields. -/
def decodeProvData (l : List Nat) : Option (String × String × String × String) :=
  match decodeStr l with
  | none => none
  | some (cert, l1) =>
    match decodeStr l1 with
    | none => none
    | some (token, l2) =>
      match decodeStr l2 with
      | none => none
      | some (tsp, l3) =>
        match decodeStr l3 with
        | none => none
        | some (dev, _) => some (cert, token, tsp, dev)

/-- Source `performProvisioning` with the generated certificate/token random
parts, the ISO timestamp, and the GCM IV explicit: guard on a missing
session key, build the credential payload, encrypt it, have the simulated
device decrypt and store it, and mark the session provisioned. -/
def performProvisioning (ts certRand tok1 tok2 nowIso : String) (iv : List Nat)
    (s : SimulationSession) : SimulationSession × Except SimError ProvisionResult :=
  match s.sessionKey with
  | none => (s, .error (.invalidState "No session key available. Run key exchange first."))
  | some key =>
    let s1 := appendLog s ts "=== SECURE PROVISIONING STARTED ==="
    let deviceCert := "-----BEGIN CERTIFICATE-----\nMIIC" ++ certRand
      ++ "\n-----END CERTIFICATE-----"
    let token := "eyJhbGciOiJIUzI1NiIsInR5cCI6IkpXVCJ9." ++ tok1 ++ "." ++ tok2
    let s2 := appendLog s1 ts "Server: Preparing provisioning credentials..."
    let s3 := appendLog s2 ts ("  Device Certificate (preview): "
      ++ strSlice deviceCert 40 ++ "...")
    let s4 := appendLog s3 ts ("  Access Token (preview): "
      ++ strSlice token 40 ++ "...")
    let plaintext := encodeProvData deviceCert token nowIso s.deviceId
    let enc := encrypt plaintext key iv
    let s5 := appendLog s4 ts "Server: Encrypting credentials with AES-256-GCM..."
    let s6 := appendLog s5 ts ("  IV: " ++ hexOfBytes enc.iv)
    let s7 := appendLog s6 ts ("  Ciphertext (preview): "
      ++ strSlice (hexOfBytes enc.ciphertext) 32 ++ "...")
    let s8 := appendLog s7 ts ("  Auth Tag: " ++ hexOfBytes enc.tag)
    let s9 := appendLog s8 ts "Device: Receiving encrypted provisioning data..."
    match decrypt enc.ciphertext key enc.iv enc.tag with
    | none => (s9, .error (.authenticationError "Unsupported state or unable to authenticate data"))
    | some pt =>
      let s10 := appendLog s9 ts "Device: Decrypting with session key..."
      match decodeProvData pt with
      | none => (s10, .error (.validationError "Unexpected end of JSON input"))
      | some (cert0, token0, _, _) =>
        let s11 := appendLog s10 ts "✓ Device successfully decrypted and stored credentials"
        let s12 := { s11 with
          provisioned := true
          provisionedData := some (cert0, token0) }
        let s13 := appendLog s12 ts "=== PROVISIONING COMPLETE ==="
        (s13, .ok { step := "S4_PROVISION", status := "success",
                    provisioned := true,
                    credentialsPreview := (strSlice deviceCert 60 ++ "...",
                                           strSlice token 50 ++ "..."),
                    log := s13.logs })

/-- Source `performOperation` with the ISO timestamp, random uptime, and the two
GCM IVs explicit: guard on missing session key and unprovisioned state,
then run the two encrypted round trips. -/
def performOperation (ts nowIso : String) (uptime : Nat) (iv1 iv2 : List Nat)
    (s : SimulationSession) : SimulationSession × Except SimError OperationResult :=
  match s.sessionKey with
  | none => (s, .error (.invalidState "No session key available. Run key exchange first."))
  | some key =>
    if s.provisioned = false then
      (s, .error (.invalidState "Device not provisioned. Run provisioning first."))
    else
      let s1 := appendLog s ts "=== NORMAL OPERATION - SECURE COMMUNICATION ==="
      let serverMessage := "Hello Device " ++ s.deviceId
        ++ "! System status check at " ++ nowIso
      let s2 := appendLog s1 ts "Server: Sending message to device..."
      let s3 := appendLog s2 ts ("  Plaintext: \"" ++ serverMessage ++ "\"")
      let serverEncrypted := encrypt (strBytes serverMessage) key iv1
      let s4 := appendLog s3 ts ("  Encrypted: "
        ++ strSlice (hexOfBytes serverEncrypted.ciphertext) 32 ++ "...")
      let s5 := appendLog s4 ts ("  IV: " ++ hexOfBytes serverEncrypted.iv
        ++ ", Tag: " ++ hexOfBytes serverEncrypted.tag)
      let s6 := appendLog s5 ts "Device: Receiving encrypted message..."
      match decrypt serverEncrypted.ciphertext key serverEncrypted.iv
          serverEncrypted.tag with
      | none => (s6, .error (.authenticationError "Unsupported state or unable to authenticate data"))
      | some received1 =>
        let deviceReceivedPlaintext := strOfBytes received1
        let s7 := appendLog s6 ts ("  Decrypted: \"" ++ deviceReceivedPlaintext ++ "\"")
        let deviceMessage := "ACK: " ++ strSlice serverMessage 30
          ++ "... | Status: OK | Uptime: " ++ toString uptime ++ "s"
        let s8 := appendLog s7 ts "Device: Sending response to server..."
        let s9 := appendLog s8 ts ("  Plaintext: \"" ++ deviceMessage ++ "\"")
        let deviceEncrypted := encrypt (strBytes deviceMessage) key iv2
        let s10 := appendLog s9 ts ("  Encrypted: "
          ++ strSlice (hexOfBytes deviceEncrypted.ciphertext) 32 ++ "...")
        let s11 := appendLog s10 ts ("  IV: " ++ hexOfBytes deviceEncrypted.iv
          ++ ", Tag: " ++ hexOfBytes deviceEncrypted.tag)
        let s12 := appendLog s11 ts "Server: Receiving device response..."
        match decrypt deviceEncrypted.ciphertext key deviceEncrypted.iv
            deviceEncrypted.tag with
        | none => (s12, .error (.authenticationError "Unsupported state or unable to authenticate data"))
        | some received2 =>
          let serverReceivedPlaintext := strOfBytes received2
          let s13 := appendLog s12 ts ("  Decrypted: \"" ++ serverReceivedPlaintext ++ "\"")
          let s14 := appendLog s13 ts "✓ Secure bidirectional communication successful!"
          let s15 := appendLog s14 ts "=== OPERATION COMPLETE ==="
          (s15, .ok { step := "S5_OPERATION", status := "success",
                      serverToDevicePlaintext := serverMessage,
                      deviceToServerPlaintext := deviceMessage,
                      log := s15.logs })

/-- Source `resetSession`: clear all progress fields, keep the identity fields,
then append the single reset log entry. -/
def resetSession (ts : String) (s : SimulationSession) :
    SimulationSession × ResetResult :=
  let s1 := { s with crps := [], dh := DHKeys.empty, sessionKey := none,
                     logs := [], provisioned := false, provisionedData := none }
  let s2 := appendLog s1 ts "Session reset - all data cleared"
  (s2, { status := "success", message := "Session reset successfully" })

/-- The typed view of a `pufType` string that passed the route's
membership check (`['arbiter','sram','fallback'].includes(pufType)`). -/
def pufTypeOfString (s : String) : PufType :=
  if s = "sram" then .sram else if s = "fallback" then .fallback else .arbiter

/-- Source `POST /api/sim/session/init`: validate `deviceId`, `pufType` and
`numCrps` in the handler's order, then create and store the session.  The
raw request carries an arbitrary `pufType` string and an arbitrary
integer `numCrps`. -/
def initSessionRoute (sid ts : String) (pufSeed : Nat) (deviceId pufTypeStr : String)
    (numCrps : Int) (m : SessionMap) : SessionMap × Except SimError String :=
  if deviceId = "" then
    (m, .error (.validationError "deviceId is required and must be a string"))
  else if ¬(pufTypeStr = "arbiter" ∨ pufTypeStr = "sram" ∨ pufTypeStr = "fallback") then
    (m, .error (.validationError "pufType must be one of: arbiter, sram, fallback"))
  else if numCrps < 1 ∨ 1000 < numCrps then
    (m, .error (.validationError "numCrps must be a number between 1 and 1000"))
  else
    let r := createSession m sid ts pufSeed deviceId (pufTypeOfString pufTypeStr)
      numCrps.toNat
    (r.1, .ok r.2)

/-! ## Traces of core operations over one session (for the reachable-state
invariant). -/

/-- One core operation applied to a session, with its randomness and
timestamps attached. -/
inductive SimOp where
  | enrollOp (ts : String) (rng : Nat → List Nat)
  | authOp (ts : String) (idx : Nat)
  | exchangeOp (ts : String) (p g a b : Nat)
  | provisionOp (ts certRand tok1 tok2 nowIso : String) (iv : List Nat)
  | operateOp (ts nowIso : String) (uptime : Nat) (iv1 iv2 : List Nat)
  | resetOp (ts : String)

/-- The session state after one operation (whether it succeeded or threw,
the session is left as the operation left it). -/
def applyOp (s : SimulationSession) : SimOp → SimulationSession
  | .enrollOp ts rng => (performEnrollment ts rng s).1
  | .authOp ts idx => (performAuthentication ts idx s).1
  | .exchangeOp ts p g a b => (performKeyExchange ts p g a b s).1
  | .provisionOp ts c t1 t2 n iv => (performProvisioning ts c t1 t2 n iv s).1
  | .operateOp ts n u i1 i2 => (performOperation ts n u i1 i2 s).1
  | .resetOp ts => (resetSession ts s).1

/-- Run a sequence of core operations against a session. -/
def runOps (s : SimulationSession) (ops : List SimOp) : SimulationSession :=
  ops.foldl applyOp s

/-- Whether a key exchange has happened since the last reset (starting
from `acc` at the head of the trace). -/
def keyMarker (acc : Bool) (ops : List SimOp) : Bool :=
  ops.foldl
    (fun a op =>
      match op with
      | .exchangeOp .. => true
      | .resetOp .. => false
      | _ => a)
    acc

/-- A sample concrete session used by closed witness statements. -/
def sampleSession : SimulationSession :=
  mkSession "sid0" "00:00:00.000" 305419896 "DEV-1" PufType.arbiter 3

/-! ## Helper lemmas -/

theorem zipWith_xor_cancel (a : List Nat) :
    ∀ b : List Nat, b.length = a.length →
      List.zipWith (· ^^^ ·) (List.zipWith (· ^^^ ·) a b) b = a := by
  induction a with
  | nil => intro b _; simp
  | cons x xs ih =>
    intro b hb
    cases b with
    | nil => simp at hb
    | cons y ys =>
      simp only [List.zipWith_cons_cons, List.cons.injEq]
      constructor
      · rw [Nat.xor_assoc, Nat.xor_self, Nat.xor_zero]
      · exact ih ys (by simpa using hb)

theorem gcmKeystreamBytes_length (key iv : List Nat) (n : Nat) :
    (gcmKeystreamBytes key iv n).length = n := by
  simp [gcmKeystreamBytes]

theorem gcmCipherBytes_length (key iv msg : List Nat) :
    (gcmCipherBytes key iv msg).length = msg.length := by
  simp [gcmCipherBytes, gcmKeystreamBytes_length]

/-- The CTR transform is an involution. -/
theorem gcmCipherBytes_involution (key iv pt : List Nat) :
    gcmCipherBytes key iv (gcmCipherBytes key iv pt) = pt := by
  rw [gcmCipherBytes, gcmCipherBytes_length, gcmCipherBytes]
  exact zipWith_xor_cancel pt _ (gcmKeystreamBytes_length key iv pt.length)

/-- AEAD round trip: decrypting an `encrypt` output with the same key
always succeeds and returns the plaintext. -/
theorem decrypt_encrypt (pt key iv : List Nat) :
    decrypt (encrypt pt key iv).ciphertext key (encrypt pt key iv).iv
      (encrypt pt key iv).tag = some pt := by
  simp only [encrypt]
  rw [decrypt, if_pos rfl, gcmCipherBytes_involution]

attribute [irreducible] keyExpansion aes256Block gcmKeystreamBytes
  gcmCipherBytes gcmTag encrypt decrypt

theorem decodeStr_encodeStr (s : String) (rest : List Nat) :
    decodeStr (encodeStr s ++ rest) = some (s, rest) := by
  simp only [encodeStr, List.cons_append, decodeStr]
  have hlen : (s.data.map Char.toNat).length = s.data.length := by simp
  rw [if_pos (by simp)]
  have ht : ((s.data.map Char.toNat) ++ rest).take s.data.length
      = s.data.map Char.toNat := by
    rw [← hlen, List.take_left]
  have hd : ((s.data.map Char.toNat) ++ rest).drop s.data.length = rest := by
    rw [← hlen, List.drop_left]
  rw [ht, hd, List.map_map]
  have hid : s.data.map (Char.ofNat ∘ Char.toNat) = s.data := by
    have h : (Char.ofNat ∘ Char.toNat) = id := by
      funext c
      simp [Char.ofNat_toNat]
    rw [h, List.map_id]
  rw [hid]

theorem decodeProvData_encodeProvData (a b c d : String) :
    decodeProvData (encodeProvData a b c d) = some (a, b, c, d) := by
  rw [encodeProvData, decodeProvData]
  rw [List.append_assoc, List.append_assoc]
  rw [decodeStr_encodeStr]
  simp only
  rw [decodeStr_encodeStr]
  simp only
  rw [decodeStr_encodeStr]
  simp only
  have : encodeStr d = encodeStr d ++ ([] : List Nat) := by simp
  rw [this, decodeStr_encodeStr]

/-- The two DH shared secrets always agree. -/
theorem dh_secrets_eq (p g a b : Nat) :
    (g ^ b % p) ^ a % p = (g ^ a % p) ^ b % p := by
  rw [← Nat.pow_mod, ← Nat.pow_mod, ← pow_mul, ← pow_mul, Nat.mul_comm]

/-- The CRP produced by enrollment iteration `i`. -/
def enrollCRP (rng : Nat → List Nat) (seed : Nat) (pt : PufType) (i : Nat) : CRP :=
  let ch := generateChallenge (rng i) 64
  ⟨ch, evalPUF ch seed pt⟩

theorem enrollStep_eq (ts : String) (rng : Nat → List Nat)
    (st : SimulationSession) (i : Nat) :
    ∃ L, enrollStep ts rng st i =
      { st with crps := st.crps ++ [enrollCRP rng st.pufSeed st.pufType i],
                logs := L } := by
  rw [enrollStep, enrollCRP]
  simp only [appendLog]
  split
  · exact ⟨_, rfl⟩
  · split
    · exact ⟨_, rfl⟩
    · exact ⟨_, rfl⟩

theorem enrollLoop_eq (ts : String) (rng : Nat → List Nat) :
    ∀ (m : Nat) (st : SimulationSession),
      ∃ L, (List.range m).foldl (enrollStep ts rng) st =
        { st with
            crps := st.crps
              ++ (List.range m).map (enrollCRP rng st.pufSeed st.pufType),
            logs := L } := by
  intro m
  induction m with
  | zero =>
    intro st
    exact ⟨st.logs, by simp⟩
  | succ m ih =>
    intro st
    rw [List.range_succ, List.foldl_append, List.foldl_cons, List.foldl_nil]
    obtain ⟨L1, hL1⟩ := ih st
    rw [hL1]
    obtain ⟨L2, hL2⟩ := enrollStep_eq ts rng
      { st with
          crps := st.crps
            ++ (List.range m).map (enrollCRP rng st.pufSeed st.pufType),
          logs := L1 } m
    rw [hL2]
    refine ⟨L2, ?_⟩
    simp [List.range_succ]

theorem performEnrollment_eq (ts : String) (rng : Nat → List Nat)
    (s : SimulationSession) :
    ∃ L, performEnrollment ts rng s =
      ({ s with
          crps := (List.range s.numCrps).map (enrollCRP rng s.pufSeed s.pufType),
          logs := L },
       { step := "S0_ENROLL", status := "success", crpCount := s.numCrps,
         log := L }) := by
  rw [performEnrollment]
  simp only [appendLog]
  obtain ⟨L, hL⟩ := enrollLoop_eq ts rng s.numCrps
    { s with
        crps := [],
        logs := s.logs
          ++ ["[" ++ ts ++ "] " ++ "=== ENROLLMENT PHASE STARTED ==="]
          ++ ["[" ++ ts ++ "] " ++ ("Generating " ++ toString s.numCrps
              ++ " Challenge-Response Pairs...")] }
  rw [hL]
  simp

/-- Field views of `appendLog`: appending a log entry changes only the
log. -/
@[simp] theorem appendLog_id (s : SimulationSession) (ts m : String) :
    (appendLog s ts m).id = s.id := rfl

@[simp] theorem appendLog_deviceId (s : SimulationSession) (ts m : String) :
    (appendLog s ts m).deviceId = s.deviceId := rfl

@[simp] theorem appendLog_pufType (s : SimulationSession) (ts m : String) :
    (appendLog s ts m).pufType = s.pufType := rfl

@[simp] theorem appendLog_pufSeed (s : SimulationSession) (ts m : String) :
    (appendLog s ts m).pufSeed = s.pufSeed := rfl

@[simp] theorem appendLog_numCrps (s : SimulationSession) (ts m : String) :
    (appendLog s ts m).numCrps = s.numCrps := rfl

@[simp] theorem appendLog_crps (s : SimulationSession) (ts m : String) :
    (appendLog s ts m).crps = s.crps := rfl

@[simp] theorem appendLog_dh (s : SimulationSession) (ts m : String) :
    (appendLog s ts m).dh = s.dh := rfl

@[simp] theorem appendLog_sessionKey (s : SimulationSession) (ts m : String) :
    (appendLog s ts m).sessionKey = s.sessionKey := rfl

@[simp] theorem appendLog_provisioned (s : SimulationSession) (ts m : String) :
    (appendLog s ts m).provisioned = s.provisioned := rfl

@[simp] theorem appendLog_provisionedData (s : SimulationSession) (ts m : String) :
    (appendLog s ts m).provisionedData = s.provisionedData := rfl

@[simp] theorem appendLog_logs (s : SimulationSession) (ts m : String) :
    (appendLog s ts m).logs = s.logs ++ ["[" ++ ts ++ "] " ++ m] := rfl

/-- The session key derived by one `performKeyExchange` call. -/
def kxKey (p g a b : Nat) : List Nat :=
  sha256 (natToBytesBE ((g ^ b % p) ^ a % p))

/-- The DH key material stored by one `performKeyExchange` call. -/
def kxDH (p g a b : Nat) : DHKeys :=
  { devicePrivate := some (natToHexStr a)
    devicePublic := some (natToHexStr (g ^ a % p))
    serverPrivate := some (natToHexStr b)
    serverPublic := some (natToHexStr (g ^ b % p)) }

/-- The ten log entries appended by one `performKeyExchange` call. -/
def kxLogs (ts : String) (p g a b : Nat) : List String :=
  ["[" ++ ts ++ "] " ++ "=== DIFFIE-HELLMAN KEY EXCHANGE STARTED ===",
   "[" ++ ts ++ "] " ++ "Device: Generated DH key pair",
   "[" ++ ts ++ "] " ++ ("  Public key: "
     ++ strSlice (natToHexStr (g ^ a % p)) 16 ++ "..."),
   "[" ++ ts ++ "] " ++ "Server: Generated DH key pair",
   "[" ++ ts ++ "] " ++ ("  Public key: "
     ++ strSlice (natToHexStr (g ^ b % p)) 16 ++ "..."),
   "[" ++ ts ++ "] " ++ "Device: Computed shared secret",
   "[" ++ ts ++ "] " ++ "Server: Computed shared secret",
   "[" ++ ts ++ "] " ++ "✓ Shared secrets match!",
   "[" ++ ts ++ "] " ++ ("✓ Derived AES-256 session key: "
     ++ strSlice (hexOfBytes (kxKey p g a b)) 16 ++ "..."),
   "[" ++ ts ++ "] " ++ "=== KEY EXCHANGE COMPLETE ==="]

/-- Source `performKeyExchange` never throws: the two shared secrets always
agree, the DH material and derived key are stored, the full session key
hex is returned in the result, and exactly the ten exchange entries are
appended to the log. -/
theorem performKeyExchange_eq (ts : String) (p g a b : Nat)
    (s : SimulationSession) :
    performKeyExchange ts p g a b s =
      ({ s with dh := kxDH p g a b, sessionKey := some (kxKey p g a b),
                logs := s.logs ++ kxLogs ts p g a b },
       .ok { step := "S3_DH", status := "success",
             devicePublicKey := natToHexStr (g ^ a % p),
             serverPublicKey := natToHexStr (g ^ b % p),
             sessionKeyHex := hexOfBytes (kxKey p g a b),
             log := s.logs ++ kxLogs ts p g a b }) := by
  rw [performKeyExchange]
  rw [if_neg (by simp [dh_secrets_eq])]
  simp [kxKey, kxDH, kxLogs, appendLog, SimulationSession.mk.injEq]

/-- Authentication with no stored CRPs throws before touching the
session. -/
theorem performAuthentication_empty (ts : String) (idx : Nat)
    (s : SimulationSession) (h : s.crps.length = 0) :
    performAuthentication ts idx s =
      (s, .error (.invalidState "No CRPs available. Run enrollment first.")) := by
  rw [performAuthentication, if_pos h]

/-- Authentication with at least one stored CRP returns a result and only
appends log entries. -/
theorem performAuthentication_nonempty (ts : String) (idx : Nat)
    (s : SimulationSession) (h : ¬s.crps.length = 0) :
    ∃ r, (performAuthentication ts idx s).2 = .ok r
      ∧ r.deviceResponse
          = evalPUF (s.crps.getD idx ⟨[], 0⟩).challenge s.pufSeed s.pufType
      ∧ r.expectedResponse = (s.crps.getD idx ⟨[], 0⟩).response
      ∧ r.status = (if r.deviceResponse == r.expectedResponse then "success"
          else "error") := by
  rw [performAuthentication, if_neg h]
  exact ⟨_, rfl, rfl, rfl, rfl⟩

/-- Authentication changes no session field except the log. -/
theorem performAuthentication_fields (ts : String) (idx : Nat)
    (s : SimulationSession) :
    (performAuthentication ts idx s).1.sessionKey = s.sessionKey
    ∧ (performAuthentication ts idx s).1.provisioned = s.provisioned
    ∧ (performAuthentication ts idx s).1.crps = s.crps
    ∧ (performAuthentication ts idx s).1.dh = s.dh
    ∧ (performAuthentication ts idx s).1.provisionedData = s.provisionedData := by
  rw [performAuthentication]
  split
  · exact ⟨rfl, rfl, rfl, rfl, rfl⟩
  · simp only
    split <;> simp

/-- Provisioning without a session key throws before touching the
session. -/
theorem performProvisioning_none (ts certRand tok1 tok2 nowIso : String)
    (iv : List Nat) (s : SimulationSession) (h : s.sessionKey = none) :
    performProvisioning ts certRand tok1 tok2 nowIso iv s =
      (s, .error (.invalidState "No session key available. Run key exchange first.")) := by
  rw [performProvisioning, h]

/-- Provisioning with a session key present always succeeds: the AEAD
round trip and the credential parse cannot fail, `provisioned` is set,
and the session key is untouched. -/
theorem performProvisioning_some (ts certRand tok1 tok2 nowIso : String)
    (iv : List Nat) (s : SimulationSession) (key : List Nat)
    (h : s.sessionKey = some key) :
    ∃ r, (performProvisioning ts certRand tok1 tok2 nowIso iv s).2 = .ok r
      ∧ r.status = "success"
      ∧ (performProvisioning ts certRand tok1 tok2 nowIso iv s).1.provisioned = true
      ∧ (performProvisioning ts certRand tok1 tok2 nowIso iv s).1.sessionKey
          = s.sessionKey
      ∧ (performProvisioning ts certRand tok1 tok2 nowIso iv s).1.crps = s.crps := by
  rw [performProvisioning, h]
  simp only [decrypt_encrypt, decodeProvData_encodeProvData]
  exact ⟨_, rfl, rfl, by simp [h], by simp [h], by simp [h]⟩

/-- Operation without a session key or without provisioning throws before
touching the session. -/
theorem performOperation_guard (ts nowIso : String) (uptime : Nat)
    (iv1 iv2 : List Nat) (s : SimulationSession)
    (h : s.sessionKey = none ∨ s.provisioned = false) :
    performOperation ts nowIso uptime iv1 iv2 s =
      (s, .error (.invalidState
        (match s.sessionKey with
         | none => "No session key available. Run key exchange first."
         | some _ => "Device not provisioned. Run provisioning first."))) := by
  rcases h with h | h
  · rw [performOperation, h]
  · cases hk : s.sessionKey with
    | none => rw [performOperation, hk]
    | some key => simp only [performOperation, hk, h, if_pos]

/-- Operation with a session key on a provisioned session always
succeeds, and changes no session field except the log. -/
theorem performOperation_ok (ts nowIso : String) (uptime : Nat)
    (iv1 iv2 : List Nat) (s : SimulationSession) (key : List Nat)
    (hk : s.sessionKey = some key) (hp : s.provisioned = true) :
    ∃ r, (performOperation ts nowIso uptime iv1 iv2 s).2 = .ok r
      ∧ r.status = "success"
      ∧ (performOperation ts nowIso uptime iv1 iv2 s).1.sessionKey = s.sessionKey
      ∧ (performOperation ts nowIso uptime iv1 iv2 s).1.provisioned = s.provisioned
      ∧ (performOperation ts nowIso uptime iv1 iv2 s).1.crps = s.crps
      ∧ (performOperation ts nowIso uptime iv1 iv2 s).1.provisionedData
          = s.provisionedData := by
  simp only [performOperation, hk, hp, decrypt_encrypt]
  exact ⟨_, rfl, rfl, by simp [hk], by simp [hp], by simp, by simp⟩

/-- The exact effect of `resetSession`. -/
theorem resetSession_eq (ts : String) (s : SimulationSession) :
    resetSession ts s =
      ({ s with crps := [], dh := DHKeys.empty, sessionKey := none,
                logs := ["[" ++ ts ++ "] " ++ "Session reset - all data cleared"],
                provisioned := false, provisionedData := none },
       { status := "success", message := "Session reset successfully" }) := by
  rw [resetSession]
  simp [appendLog]

/-! ## Claim theorems -/

/-- C1: for every challenge bit-sequence, seed, and PUF type, `evalPUF`
computes exactly the bit given by the spec's reference algorithm: pack
the challenge bits MSB-first into the minimum number of bytes, hash
`seedBE4 ‖ pufType-name ‖ packed` with SHA-256, XOR-fold the 32 digest
bytes into one accumulator byte, run
`acc := acc XOR ((acc >>> i) AND 1)` for `i` in 0..7, and return
`acc AND 1`. -/
theorem evalPUF_matches_spec_reference (bits : List Nat) (seed : Nat)
    (pt : PufType) (hb : ∀ b ∈ bits, b = 0 ∨ b = 1) :
    evalPUF bits seed pt = evalPUFSpecRef bits seed pt := by
  rw [evalPUF, evalPUFSpecRef, packChallengeBytes_eq_spec bits hb]

/-- Witness for C1 at a concrete 11-bit challenge. -/
theorem evalPUF_matches_spec_reference_witness :
    (∀ b ∈ [1, 0, 1, 1, 0, 0, 1, 0, 1, 1, 1], b = 0 ∨ b = 1)
    ∧ evalPUF [1, 0, 1, 1, 0, 0, 1, 0, 1, 1, 1] 305419896 PufType.arbiter
        = evalPUFSpecRef [1, 0, 1, 1, 0, 0, 1, 0, 1, 1, 1] 305419896 PufType.arbiter :=
  ⟨by decide,
   evalPUF_matches_spec_reference [1, 0, 1, 1, 0, 0, 1, 0, 1, 1, 1] 305419896
     PufType.arbiter (by decide)⟩

/-- C2: on a session freshly enrolled (seed and type unchanged since the
CRPs were stored), authentication succeeds for every possible choice of
stored CRP index: the re-evaluated device response equals the stored
response and the reported status is success. -/
theorem authentication_after_enrollment_succeeds (ts1 ts2 : String)
    (rng : Nat → List Nat) (idx : Nat) (s : SimulationSession)
    (h1 : 1 ≤ s.numCrps) (h2 : idx < s.numCrps) :
    ∃ r, (performAuthentication ts2 idx (performEnrollment ts1 rng s).1).2 = .ok r
      ∧ r.deviceResponse = r.expectedResponse
      ∧ r.status = "success" := by
  obtain ⟨L, hE⟩ := performEnrollment_eq ts1 rng s
  rw [hE]
  simp only
  have hlen : ({ s with
      crps := (List.range s.numCrps).map (enrollCRP rng s.pufSeed s.pufType),
      logs := L } : SimulationSession).crps.length = s.numCrps := by simp
  obtain ⟨r, hr, hdev, hexp, hstat⟩ :=
    performAuthentication_nonempty ts2 idx
      { s with
          crps := (List.range s.numCrps).map (enrollCRP rng s.pufSeed s.pufType),
          logs := L }
      (by rw [hlen]; omega)
  have hgd : (((List.range s.numCrps).map
        (enrollCRP rng s.pufSeed s.pufType)).getD idx ⟨[], 0⟩)
      = enrollCRP rng s.pufSeed s.pufType idx := by
    rw [List.getD_eq_getElem _ _ (by simpa using h2)]
    simp
  have heq : r.deviceResponse = r.expectedResponse := by
    rw [hdev, hexp]
    simp only [hgd]
    rfl
  refine ⟨r, hr, heq, ?_⟩
  rw [hstat, heq]
  simp

/-- Witness for C2: enroll then authenticate on the sample session, CRP
index 1. -/
theorem authentication_after_enrollment_succeeds_witness :
    (1 ≤ sampleSession.numCrps ∧ 1 < sampleSession.numCrps)
    ∧ ∃ r, (performAuthentication "t2" 1
          (performEnrollment "t1" (fun i => List.replicate 8 i) sampleSession).1).2
        = .ok r
      ∧ r.deviceResponse = r.expectedResponse
      ∧ r.status = "success" :=
  ⟨⟨by decide, by decide⟩,
   authentication_after_enrollment_succeeds "t1" "t2"
     (fun i => List.replicate 8 i) 1 sampleSession (by decide) (by decide)⟩

/-- C3: for a session with `numCrps = n`, `1 ≤ n ≤ 1000`, enrollment
replaces any previously stored CRP set by exactly `n` fresh CRPs — the
resulting list is a pure function of the randomness, seed and type, and
does not depend on the prior `crps` — each CRP having a 64-entry 0/1
challenge and a response equal to `evalPUF` on it; the reported
`crpCount` is `n`. -/
theorem enrollment_produces_n_consistent_crps (ts : String)
    (rng : Nat → List Nat) (s : SimulationSession)
    (h1 : 1 ≤ s.numCrps) (h2 : s.numCrps ≤ 1000) :
    (performEnrollment ts rng s).1.crps
        = (List.range s.numCrps).map (enrollCRP rng s.pufSeed s.pufType)
    ∧ (performEnrollment ts rng s).1.crps.length = s.numCrps
    ∧ (performEnrollment ts rng s).2.crpCount = s.numCrps
    ∧ ∀ crp ∈ (performEnrollment ts rng s).1.crps,
        crp.challenge.length = 64
        ∧ (∀ b ∈ crp.challenge, b = 0 ∨ b = 1)
        ∧ crp.response = evalPUF crp.challenge s.pufSeed s.pufType := by
  obtain ⟨L, hE⟩ := performEnrollment_eq ts rng s
  rw [hE]
  refine ⟨by simp, by simp, by simp, ?_⟩
  simp only
  intro crp hcrp
  simp only [List.mem_map, List.mem_range] at hcrp
  obtain ⟨i, _, hi⟩ := hcrp
  subst hi
  refine ⟨by simp [enrollCRP, generateChallenge], ?_, rfl⟩
  intro b hb
  rw [enrollCRP] at hb
  simp only [generateChallenge, List.mem_map, List.mem_range] at hb
  obtain ⟨j, _, hj⟩ := hb
  rw [← hj, Nat.and_one_is_mod]
  omega

/-- Witness for C3 on the sample session (`numCrps = 3`). -/
theorem enrollment_produces_n_consistent_crps_witness :
    (1 ≤ sampleSession.numCrps ∧ sampleSession.numCrps ≤ 1000)
    ∧ (performEnrollment "t1" (fun i => List.replicate 8 i) sampleSession).2.crpCount
        = sampleSession.numCrps :=
  ⟨⟨by decide, by decide⟩,
   (enrollment_produces_n_consistent_crps "t1" (fun i => List.replicate 8 i)
     sampleSession (by decide) (by decide)).2.2.1⟩

/-- C4 counterexample: the claim says reset leaves the log empty, but the
code appends a reset entry after clearing it, so the log of a freshly
reset session is nonempty. -/
theorem resetSession_log_not_empty_counterexample :
    (resetSession "00:00:00.000" sampleSession).1.logs ≠ [] := by decide

/-- C4 (amended): reset clears `crps`, `dh`, `sessionKey`, `provisioned`
and `provisionedData`, resets the log to exactly the single
"Session reset - all data cleared" entry (not to the empty list), and
preserves `id`, `deviceId`, `pufType`, `pufSeed` and `numCrps`. -/
theorem resetSession_frame (ts : String) (s : SimulationSession) :
    (resetSession ts s).1.crps = []
    ∧ (resetSession ts s).1.dh = DHKeys.empty
    ∧ (resetSession ts s).1.sessionKey = none
    ∧ (resetSession ts s).1.provisioned = false
    ∧ (resetSession ts s).1.provisionedData = none
    ∧ (resetSession ts s).1.logs
        = ["[" ++ ts ++ "] " ++ "Session reset - all data cleared"]
    ∧ (resetSession ts s).1.id = s.id
    ∧ (resetSession ts s).1.deviceId = s.deviceId
    ∧ (resetSession ts s).1.pufType = s.pufType
    ∧ (resetSession ts s).1.pufSeed = s.pufSeed
    ∧ (resetSession ts s).1.numCrps = s.numCrps := by
  rw [resetSession_eq ts s]
  exact ⟨rfl, rfl, rfl, rfl, rfl, rfl, rfl, rfl, rfl, rfl, rfl⟩

/-- C10: `deleteSession` is total (absent ids are a no-op rather than an
error) and idempotent: deleting twice leaves the map exactly as deleting
once, and deleting an absent id leaves the map unchanged. -/
theorem deleteSession_total_idempotent (m : SessionMap) (sid : String) :
    deleteSession (deleteSession m sid) sid = deleteSession m sid
    ∧ (m.lookup sid = none → deleteSession m sid = m) := by
  constructor
  · rw [deleteSession, deleteSession, List.filter_filter]
    apply List.filter_congr
    intro p _
    rw [Bool.and_self]
  · intro h
    rw [deleteSession]
    apply List.filter_eq_self.mpr
    intro p hp
    rw [List.lookup_eq_none_iff] at h
    have hne := h p hp
    simp only [bne_iff_ne, ne_eq] at hne
    have hne2 : ¬p.1 = sid := fun he => hne (Eq.symm he)
    simp [hne2]

/-- Witness for C10 on a concrete two-entry map and an absent id. -/
theorem deleteSession_total_idempotent_witness :
    deleteSession (deleteSession [("a", sampleSession)] "b") "b"
        = deleteSession [("a", sampleSession)] "b"
    ∧ deleteSession [("a", sampleSession)] "b" = [("a", sampleSession)] :=
  ⟨(deleteSession_total_idempotent [("a", sampleSession)] "b").1,
   (deleteSession_total_idempotent [("a", sampleSession)] "b").2 (by decide)⟩

/-- C6: the phase guards throw `InvalidState` exactly when their
prerequisite is unmet: authentication fails iff the CRP list is empty,
provisioning fails iff there is no session key, and operation fails iff
there is no session key or the session is not provisioned; in each
unmet case the error is the `InvalidState` guard error. -/
theorem phase_guards_iff (ts : String) (idx : Nat)
    (certRand tok1 tok2 nowIso : String) (iv : List Nat)
    (nowIso2 : String) (uptime : Nat) (iv1 iv2 : List Nat)
    (s : SimulationSession) :
    ((∃ e, (performAuthentication ts idx s).2 = .error e) ↔ s.crps = [])
    ∧ (s.crps = [] → (performAuthentication ts idx s).2
        = .error (.invalidState "No CRPs available. Run enrollment first."))
    ∧ ((∃ e, (performProvisioning ts certRand tok1 tok2 nowIso iv s).2 = .error e)
        ↔ s.sessionKey = none)
    ∧ (s.sessionKey = none → (performProvisioning ts certRand tok1 tok2 nowIso iv s).2
        = .error (.invalidState "No session key available. Run key exchange first."))
    ∧ ((∃ e, (performOperation ts nowIso2 uptime iv1 iv2 s).2 = .error e)
        ↔ (s.sessionKey = none ∨ s.provisioned = false))
    ∧ ((s.sessionKey = none ∨ s.provisioned = false)
        → ∃ msg, (performOperation ts nowIso2 uptime iv1 iv2 s).2
            = .error (.invalidState msg)) := by
  refine ⟨⟨?_, ?_⟩, ?_, ⟨?_, ?_⟩, ?_, ⟨?_, ?_⟩, ?_⟩
  · rintro ⟨e, he⟩
    by_contra hne
    have hlen : ¬s.crps.length = 0 := by
      intro hc
      exact hne (List.length_eq_zero.mp hc)
    obtain ⟨r, hr, -⟩ := performAuthentication_nonempty ts idx s hlen
    rw [hr] at he
    exact absurd he (by simp)
  · intro h
    rw [performAuthentication_empty ts idx s (by rw [h]; rfl)]
    exact ⟨_, rfl⟩
  · intro h
    rw [performAuthentication_empty ts idx s (by rw [h]; rfl)]
  · rintro ⟨e, he⟩
    cases hk : s.sessionKey with
    | none => rfl
    | some key =>
      obtain ⟨r, hr, -⟩ :=
        performProvisioning_some ts certRand tok1 tok2 nowIso iv s key hk
      rw [hr] at he
      exact absurd he (by simp)
  · intro h
    rw [performProvisioning_none ts certRand tok1 tok2 nowIso iv s h]
    exact ⟨_, rfl⟩
  · intro h
    rw [performProvisioning_none ts certRand tok1 tok2 nowIso iv s h]
  · rintro ⟨e, he⟩
    by_contra hne
    push_neg at hne
    obtain ⟨hk, hp⟩ := hne
    obtain ⟨key, hkey⟩ := Option.ne_none_iff_exists.mp hk
    obtain ⟨r, hr, -⟩ :=
      performOperation_ok ts nowIso2 uptime iv1 iv2 s key hkey.symm
        (by cases hbp : s.provisioned with
            | true => rfl
            | false => exact absurd hbp hp)
    rw [hr] at he
    exact absurd he (by simp)
  · intro h
    rw [performOperation_guard ts nowIso2 uptime iv1 iv2 s h]
    exact ⟨_, rfl⟩
  · intro h
    rw [performOperation_guard ts nowIso2 uptime iv1 iv2 s h]
    exact ⟨_, rfl⟩

/-- Witness for C6 on the sample session (no CRPs, no key, not
provisioned). -/
theorem phase_guards_iff_witness :
    (performAuthentication "t" 0 sampleSession).2
        = .error (.invalidState "No CRPs available. Run enrollment first.")
    ∧ (performProvisioning "t" "c" "t1" "t2" "n" [] sampleSession).2
        = .error (.invalidState "No session key available. Run key exchange first.")
    ∧ ∃ msg, (performOperation "t" "n" 7 [] [] sampleSession).2
        = .error (.invalidState msg) :=
  ⟨(phase_guards_iff "t" 0 "c" "t1" "t2" "n" [] "n" 7 [] [] sampleSession).2.1
     (by decide),
   (phase_guards_iff "t" 0 "c" "t1" "t2" "n" [] "n" 7 [] [] sampleSession).2.2.2.1
     (by decide),
   (phase_guards_iff "t" 0 "c" "t1" "t2" "n" [] "n" 7 [] [] sampleSession).2.2.2.2.2
     (Or.inl (by decide))⟩

/-- C7: every failing core operation leaves the session exactly as it was
before the call (all throws happen before any session field is mutated);
enrollment never fails at all. -/
theorem failing_ops_leave_session_unchanged (ts : String) (rng : Nat → List Nat)
    (idx : Nat) (p g a b : Nat) (certRand tok1 tok2 nowIso : String)
    (iv : List Nat) (nowIso2 : String) (uptime : Nat) (iv1 iv2 : List Nat)
    (s : SimulationSession) :
    ((performEnrollment ts rng s).2.status = "success")
    ∧ (∀ e, (performAuthentication ts idx s).2 = .error e
        → (performAuthentication ts idx s).1 = s)
    ∧ (∀ e, (performKeyExchange ts p g a b s).2 = .error e
        → (performKeyExchange ts p g a b s).1 = s)
    ∧ (∀ e, (performProvisioning ts certRand tok1 tok2 nowIso iv s).2 = .error e
        → (performProvisioning ts certRand tok1 tok2 nowIso iv s).1 = s)
    ∧ (∀ e, (performOperation ts nowIso2 uptime iv1 iv2 s).2 = .error e
        → (performOperation ts nowIso2 uptime iv1 iv2 s).1 = s) := by
  refine ⟨?_, ?_, ?_, ?_, ?_⟩
  · obtain ⟨L, hE⟩ := performEnrollment_eq ts rng s
    rw [hE]
  · intro e he
    by_cases h : s.crps.length = 0
    · rw [performAuthentication_empty ts idx s h]
    · obtain ⟨r, hr, -⟩ := performAuthentication_nonempty ts idx s h
      rw [hr] at he
      exact absurd he (by simp)
  · intro e he
    rw [performKeyExchange_eq] at he
    exact absurd he (by simp)
  · intro e he
    cases hk : s.sessionKey with
    | none => rw [performProvisioning_none ts certRand tok1 tok2 nowIso iv s hk]
    | some key =>
      obtain ⟨r, hr, -⟩ :=
        performProvisioning_some ts certRand tok1 tok2 nowIso iv s key hk
      rw [hr] at he
      exact absurd he (by simp)
  · intro e he
    by_cases h : s.sessionKey = none ∨ s.provisioned = false
    · rw [performOperation_guard ts nowIso2 uptime iv1 iv2 s h]
    · push_neg at h
      obtain ⟨hk, hp⟩ := h
      obtain ⟨key, hkey⟩ := Option.ne_none_iff_exists.mp hk
      obtain ⟨r, hr, -⟩ :=
        performOperation_ok ts nowIso2 uptime iv1 iv2 s key hkey.symm
          (by cases hbp : s.provisioned with
              | true => rfl
              | false => exact absurd hbp hp)
      rw [hr] at he
      exact absurd he (by simp)

/-- Witness for C7: a failing authentication (no CRPs) leaves the sample
session untouched. -/
theorem failing_ops_leave_session_unchanged_witness :
    (performAuthentication "t" 0 sampleSession).2
        = .error (.invalidState "No CRPs available. Run enrollment first.")
    ∧ (performAuthentication "t" 0 sampleSession).1 = sampleSession :=
  ⟨rfl,
   (failing_ops_leave_session_unchanged "t" (fun _ => []) 0 23 5 6 15 "c" "t1"
       "t2" "n" [] "n" 7 [] [] sampleSession).2.1 _ rfl⟩

/-- One operation's effect on `sessionKey` presence and the
`provisioned → sessionKey` invariant. -/
theorem applyOp_key_step (s : SimulationSession) (op : SimOp) (acc : Bool)
    (h1 : s.sessionKey.isSome = acc)
    (h2 : s.provisioned = true → s.sessionKey.isSome = true) :
    (applyOp s op).sessionKey.isSome
        = (match op with
           | .exchangeOp .. => true
           | .resetOp .. => false
           | _ => acc)
    ∧ ((applyOp s op).provisioned = true
        → (applyOp s op).sessionKey.isSome = true) := by
  cases op with
  | enrollOp ts rng =>
    obtain ⟨L, hE⟩ := performEnrollment_eq ts rng s
    rw [applyOp, hE]
    exact ⟨h1, h2⟩
  | authOp ts idx =>
    rw [applyOp]
    obtain ⟨hk, hp, -⟩ := performAuthentication_fields ts idx s
    rw [hk, hp]
    exact ⟨h1, h2⟩
  | exchangeOp ts p g a b =>
    rw [applyOp, performKeyExchange_eq]
    exact ⟨rfl, fun _ => rfl⟩
  | provisionOp ts c t1 t2 n iv =>
    rw [applyOp]
    cases hk : s.sessionKey with
    | none =>
      rw [performProvisioning_none ts c t1 t2 n iv s hk]
      exact ⟨h1, h2⟩
    | some key =>
      obtain ⟨r, -, -, hp, hks, -⟩ :=
        performProvisioning_some ts c t1 t2 n iv s key hk
      refine ⟨?_, fun _ => ?_⟩
      · rw [hks]
        exact h1
      · rw [hks, hk]
        rfl
  | operateOp ts n u i1 i2 =>
    rw [applyOp]
    by_cases h : s.sessionKey = none ∨ s.provisioned = false
    · rw [performOperation_guard ts n u i1 i2 s h]
      exact ⟨h1, h2⟩
    · push_neg at h
      obtain ⟨hkne, hpne⟩ := h
      obtain ⟨key, hkey⟩ := Option.ne_none_iff_exists.mp hkne
      obtain ⟨r, -, -, hks, hp, -⟩ :=
        performOperation_ok ts n u i1 i2 s key hkey.symm
          (by cases hbp : s.provisioned with
              | true => rfl
              | false => exact absurd hbp hpne)
      rw [hks, hp]
      exact ⟨h1, h2⟩
  | resetOp ts =>
    rw [applyOp, resetSession_eq]
    exact ⟨rfl, by simp⟩

/-- The run-level invariant, generalized over the starting session and
the key marker. -/
theorem runOps_key_invariant (ops : List SimOp) :
    ∀ (s : SimulationSession) (acc : Bool),
      s.sessionKey.isSome = acc
      → (s.provisioned = true → s.sessionKey.isSome = true)
      → (runOps s ops).sessionKey.isSome = keyMarker acc ops
        ∧ ((runOps s ops).provisioned = true
            → (runOps s ops).sessionKey.isSome = true) := by
  induction ops with
  | nil =>
    intro s acc h1 h2
    exact ⟨h1, h2⟩
  | cons op rest ih =>
    intro s acc h1 h2
    rw [runOps, List.foldl_cons, keyMarker, List.foldl_cons]
    obtain ⟨hs1, hs2⟩ := applyOp_key_step s op acc h1 h2
    exact ih (applyOp s op) _ hs1 hs2

/-- C9: in every session state reachable from creation by any sequence of
core operations, `provisioned` implies a present `sessionKey`; and a
`sessionKey` is present exactly when a key exchange has happened since
creation or the last reset. -/
theorem session_key_reachability (ops : List SimOp) (sid ts : String)
    (seed : Nat) (deviceId : String) (pt : PufType) (numCrps : Nat) :
    ((runOps (mkSession sid ts seed deviceId pt numCrps) ops).provisioned = true
      → (runOps (mkSession sid ts seed deviceId pt numCrps) ops).sessionKey.isSome
          = true)
    ∧ (runOps (mkSession sid ts seed deviceId pt numCrps) ops).sessionKey.isSome
        = keyMarker false ops := by
  have h := runOps_key_invariant ops (mkSession sid ts seed deviceId pt numCrps)
    false (by rw [mkSession]; simp) (by rw [mkSession]; simp)
  exact ⟨h.2, h.1⟩

/-- Witness for C9: a single key exchange makes the key present; a
following reset clears it. -/
theorem session_key_reachability_witness :
    (runOps (mkSession "sid0" "t" 1 "DEV-1" PufType.arbiter 3)
        [SimOp.exchangeOp "t" 23 5 6 15]).sessionKey.isSome
      = keyMarker false [SimOp.exchangeOp "t" 23 5 6 15]
    ∧ (runOps (mkSession "sid0" "t" 1 "DEV-1" PufType.arbiter 3)
        [SimOp.exchangeOp "t" 23 5 6 15, SimOp.resetOp "t"]).sessionKey.isSome
      = keyMarker false [SimOp.exchangeOp "t" 23 5 6 15, SimOp.resetOp "t"] :=
  ⟨(session_key_reachability [SimOp.exchangeOp "t" 23 5 6 15] "sid0" "t" 1
      "DEV-1" PufType.arbiter 3).2,
   (session_key_reachability [SimOp.exchangeOp "t" 23 5 6 15, SimOp.resetOp "t"]
      "sid0" "t" 1 "DEV-1" PufType.arbiter 3).2⟩

/-- C8: the session-init route rejects with `ValidationError` — storing
nothing — exactly when `deviceId` is empty, `pufType` is outside
`{arbiter, sram, fallback}`, or `numCrps` is outside `[1, 1000]`; on
valid input it returns the generated session id and stores the new
session under it. -/
theorem initSessionRoute_spec (sid ts : String) (seed : Nat)
    (deviceId pufTypeStr : String) (numCrps : Int) (m : SessionMap) :
    ((∃ msg, (initSessionRoute sid ts seed deviceId pufTypeStr numCrps m).2
          = .error (.validationError msg))
      ↔ (deviceId = ""
          ∨ ¬(pufTypeStr = "arbiter" ∨ pufTypeStr = "sram" ∨ pufTypeStr = "fallback")
          ∨ numCrps < 1 ∨ 1000 < numCrps))
    ∧ ((∃ msg, (initSessionRoute sid ts seed deviceId pufTypeStr numCrps m).2
          = .error (.validationError msg))
        → (initSessionRoute sid ts seed deviceId pufTypeStr numCrps m).1 = m)
    ∧ (deviceId ≠ ""
        → (pufTypeStr = "arbiter" ∨ pufTypeStr = "sram" ∨ pufTypeStr = "fallback")
        → 1 ≤ numCrps → numCrps ≤ 1000
        → (initSessionRoute sid ts seed deviceId pufTypeStr numCrps m).2 = .ok sid
          ∧ (initSessionRoute sid ts seed deviceId pufTypeStr numCrps m).1
              = mapSet m sid
                  (mkSession sid ts seed deviceId (pufTypeOfString pufTypeStr)
                    numCrps.toNat)) := by
  refine ⟨⟨?_, ?_⟩, ?_, ?_⟩
  · rintro ⟨msg, hmsg⟩
    by_contra hc
    have hdev : ¬deviceId = "" := fun h => hc (Or.inl h)
    have hmem : pufTypeStr = "arbiter" ∨ pufTypeStr = "sram" ∨ pufTypeStr = "fallback" := by
      by_contra hm
      exact hc (Or.inr (Or.inl hm))
    have hlo : ¬numCrps < 1 := fun h => hc (Or.inr (Or.inr (Or.inl h)))
    have hhi : ¬1000 < numCrps := fun h => hc (Or.inr (Or.inr (Or.inr h)))
    rw [initSessionRoute, if_neg hdev, if_neg (by simp [hmem]),
      if_neg (by omega)] at hmsg
    exact absurd hmsg (by simp [createSession])
  · intro h
    by_cases hd : deviceId = ""
    · rw [initSessionRoute, if_pos hd]
      exact ⟨_, rfl⟩
    · by_cases hm : pufTypeStr = "arbiter" ∨ pufTypeStr = "sram" ∨ pufTypeStr = "fallback"
      · have hr : numCrps < 1 ∨ 1000 < numCrps := by
          rcases h with hd2 | hp2 | hlo | hhi
          · exact absurd hd2 hd
          · exact absurd hm hp2
          · exact Or.inl hlo
          · exact Or.inr hhi
        rw [initSessionRoute, if_neg hd, if_neg (by simp [hm]), if_pos hr]
        exact ⟨_, rfl⟩
      · rw [initSessionRoute, if_neg hd, if_pos hm]
        exact ⟨_, rfl⟩
  · rintro ⟨msg, hmsg⟩
    by_cases hd : deviceId = ""
    · rw [initSessionRoute, if_pos hd]
    · by_cases hm : pufTypeStr = "arbiter" ∨ pufTypeStr = "sram" ∨ pufTypeStr = "fallback"
      · by_cases hr : numCrps < 1 ∨ 1000 < numCrps
        · rw [initSessionRoute, if_neg hd, if_neg (by simp [hm]), if_pos hr]
        · rw [initSessionRoute, if_neg hd, if_neg (by simp [hm]), if_neg hr] at hmsg
          exact absurd hmsg (by simp [createSession])
      · rw [initSessionRoute, if_neg hd, if_pos hm]
  · intro hdev hmem hlo hhi
    rw [initSessionRoute, if_neg hdev, if_neg (by simp [hmem]),
      if_neg (by omega), createSession]
    exact ⟨rfl, rfl⟩

theorem shaBlock_length (hs block : List Nat) : (shaBlock hs block).length = 8 := rfl

theorem foldl_shaBlock_length (blocks : List (List Nat)) :
    ∀ init : List Nat, init.length = 8
      → (blocks.foldl shaBlock init).length = 8 := by
  induction blocks with
  | nil => intro init h; exact h
  | cons b rest ih =>
    intro init _
    rw [List.foldl_cons]
    exact ih (shaBlock init b) (shaBlock_length init b)

theorem bytesOfWords_length (ws : List Nat) :
    (bytesOfWords ws).length = 4 * ws.length := by
  induction ws with
  | nil => rfl
  | cons w rest ih =>
    rw [bytesOfWords, List.flatMap_cons, List.length_append, ← bytesOfWords, ih]
    simp [bytesBE4]
    omega

/-- SHA-256 always produces 32 bytes. -/
theorem sha256_length (msg : List Nat) : (sha256 msg).length = 32 := by
  rw [sha256, bytesOfWords_length, foldl_shaBlock_length _ shaH0 rfl]

theorem hexOfBytes_length (l : List Nat) :
    (hexOfBytes l).length = 2 * l.length := by
  rw [hexOfBytes]
  show (l.flatMap fun b => [hexDigit (b / 16), hexDigit (b % 16)]).length = 2 * l.length
  induction l with
  | nil => rfl
  | cons x rest ih =>
    rw [List.flatMap_cons, List.length_append, ih]
    simp
    omega

/-- Whether a character is a lowercase hex digit. -/
def isHexChar (c : Char) : Bool := hexDigitChars.elem c

theorem hexDigit_mem (n : Nat) : hexDigit n ∈ hexDigitChars := by
  rw [hexDigit]
  by_cases h : n < hexDigitChars.length
  · rw [List.getD_eq_getElem _ _ h]
    exact List.getElem_mem h
  · rw [List.getD_eq_default _ _ (by omega)]
    decide

theorem hexOfBytes_chars (l : List Nat) :
    ∀ c ∈ (hexOfBytes l).data, c ∈ hexDigitChars := by
  intro c hc
  rw [hexOfBytes] at hc
  simp only [List.mem_flatMap, List.mem_cons, List.not_mem_nil, or_false] at hc
  obtain ⟨b, -, hb⟩ := hc
  rcases hb with rfl | rfl
  · exact hexDigit_mem _
  · exact hexDigit_mem _

theorem natToHexStr_chars (n : Nat) :
    ∀ c ∈ (natToHexStr n).data, c ∈ hexDigitChars := by
  rw [natToHexStr]
  exact hexOfBytes_chars _

/-- A string of hex digits of length above the count of hex characters in
`e` cannot occur inside `e` as a contiguous substring. -/
theorem not_infix_of_hex_count (key e : List Char)
    (hk : ∀ c ∈ key, c ∈ hexDigitChars)
    (hlen : (e.filter isHexChar).length < key.length) :
    ¬ key <:+: e := by
  intro h
  have h1 : List.Sublist key e := h.sublist
  have h2 : List.Sublist (key.filter isHexChar) (e.filter isHexChar) :=
    h1.filter _
  rw [List.filter_eq_self.mpr (by
    intro c hc
    rw [isHexChar, List.elem_iff]
    exact hk c hc)] at h2
  exact absurd h2.length_le (by omega)

/-- Hex-character budget of a log entry `[ts] m`: at most the timestamp
length plus the budget of the message. -/
theorem entry_filter_le (ts m : String) (k : Nat)
    (hm : (m.data.filter isHexChar).length ≤ k) :
    ((("[" ++ ts ++ "] ") ++ m).data.filter isHexChar).length
      ≤ ts.length + k := by
  simp only [String.data_append, List.filter_append, List.length_append]
  have h1 : (List.filter isHexChar ['[']).length = 0 := by decide
  have h2 : (List.filter isHexChar [']', ' ']).length = 0 := by decide
  have h3 : (ts.data.filter isHexChar).length ≤ ts.data.length :=
    ts.data.length_filter_le _
  have h4 : ts.data.length = ts.length := rfl
  omega

/-- Hex-character budget of a preview message `m ++ slice ++ "..."`. -/
theorem preview_filter_le (m : String) (sliced : String) (n : Nat) (k : Nat)
    (hm : (m.data.filter isHexChar).length ≤ k)
    (hs : sliced.data.length ≤ n) :
    (((m ++ sliced ++ "...")).data.filter isHexChar).length ≤ k + n := by
  simp only [String.data_append, List.filter_append, List.length_append]
  have h2 : (sliced.data.filter isHexChar).length ≤ n :=
    le_trans (sliced.data.length_filter_le _) hs
  have h3 : (List.filter isHexChar ['.', '.', '.']).length = 0 := by decide
  omega

theorem strSlice_data_le (s : String) (n : Nat) :
    (strSlice s n).data.length ≤ n := by
  rw [strSlice]
  exact s.data.length_take_le n

/-- C5 counterexample: at a concrete key exchange the caller receives the
full 64-hex-character session key in `sessionKeyHex` — exactly the hex of
the stored 32-byte session key, not the 16-character preview that the log
carries — refuting the claim that the result only ever contains a
preview. -/
theorem keyExchange_returns_full_key_counterexample :
    ∃ r kb, (performKeyExchange "00:00:00.000" 23 5 6 15 sampleSession).2
        = Except.ok r
      ∧ (performKeyExchange "00:00:00.000" 23 5 6 15 sampleSession).1.sessionKey
          = some kb
      ∧ r.sessionKeyHex = hexOfBytes kb
      ∧ (hexOfBytes kb).length = 64
      ∧ r.sessionKeyHex ≠ strSlice (hexOfBytes kb) 16 ++ "..." :=
  ⟨_, _, rfl, rfl, rfl, by decide, by decide⟩

/-- C5 (amended): every key exchange succeeds and returns the full
derived session key in `sessionKeyHex` (the session key is exposed to the
caller, not only a preview); the log half of the claim holds: the ten
appended log entries never contain a private key hex string or the full
session key hex as a substring — they carry only 16-character previews.
The hypotheses record that real timestamps are 12 characters and real
2048-bit DH private keys have hex encodings far longer than any log
entry's hex content. -/
theorem keyExchange_full_key_and_log_safety (ts : String) (p g a b : Nat)
    (s : SimulationSession) (hts : ts.length = 12)
    (hpa : 64 ≤ (natToHexStr a).length) (hpb : 64 ≤ (natToHexStr b).length) :
    ∃ r kb, (performKeyExchange ts p g a b s).2 = Except.ok r
      ∧ (performKeyExchange ts p g a b s).1.sessionKey = some kb
      ∧ r.sessionKeyHex = hexOfBytes kb
      ∧ (hexOfBytes kb).length = 64
      ∧ (performKeyExchange ts p g a b s).1.logs = s.logs ++ kxLogs ts p g a b
      ∧ ∀ e ∈ kxLogs ts p g a b,
          ¬ (natToHexStr a).data <:+: e.data
          ∧ ¬ (natToHexStr b).data <:+: e.data
          ∧ ¬ (hexOfBytes kb).data <:+: e.data := by
  rw [performKeyExchange_eq]
  have hkb : (hexOfBytes (kxKey p g a b)).length = 64 := by
    rw [hexOfBytes_length, kxKey, sha256_length]
  refine ⟨_, kxKey p g a b, rfl, rfl, rfl, hkb, rfl, ?_⟩
  have hdata : ∀ t : String, t.data.length = t.length := fun _ => rfl
  have hbound : ∀ e ∈ kxLogs ts p g a b,
      (e.data.filter isHexChar).length ≤ 47 := by
    intro e he
    rw [kxLogs] at he
    simp only [List.mem_cons, List.not_mem_nil, or_false] at he
    have hfix : ∀ m : String, (m.data.filter isHexChar).length ≤ 35
        → ((("[" ++ ts ++ "] ") ++ m).data.filter isHexChar).length ≤ 47 := by
      intro m hm
      have := entry_filter_le ts m 35 hm
      omega
    rcases he with rfl | rfl | rfl | rfl | rfl | rfl | rfl | rfl | rfl | rfl
    · exact hfix _ (by decide)
    · exact hfix _ (by decide)
    · refine hfix _ ?_
      have := preview_filter_le "  Public key: " (strSlice (natToHexStr (g ^ a % p)) 16)
        16 3 (by decide) (strSlice_data_le _ 16)
      omega
    · exact hfix _ (by decide)
    · refine hfix _ ?_
      have := preview_filter_le "  Public key: " (strSlice (natToHexStr (g ^ b % p)) 16)
        16 3 (by decide) (strSlice_data_le _ 16)
      omega
    · exact hfix _ (by decide)
    · exact hfix _ (by decide)
    · exact hfix _ (by decide)
    · refine hfix _ ?_
      have := preview_filter_le "✓ Derived AES-256 session key: "
        (strSlice (hexOfBytes (kxKey p g a b)) 16) 16 19 (by decide)
        (strSlice_data_le _ 16)
      omega
    · exact hfix _ (by decide)
  intro e he
  have hb := hbound e he
  refine ⟨?_, ?_, ?_⟩
  · apply not_infix_of_hex_count _ _ (natToHexStr_chars a)
    have hlen := hdata (natToHexStr a)
    omega
  · apply not_infix_of_hex_count _ _ (natToHexStr_chars b)
    have hlen := hdata (natToHexStr b)
    omega
  · apply not_infix_of_hex_count _ _ (hexOfBytes_chars (kxKey p g a b))
    have hlen := hdata (hexOfBytes (kxKey p g a b))
    omega

/-- Witness for C5 (amended) at a 12-character timestamp and private keys
of at least 32 bytes. -/
theorem keyExchange_full_key_and_log_safety_witness :
    (("00:00:00.000" : String).length = 12
      ∧ 64 ≤ (natToHexStr (2 ^ 252)).length
      ∧ 64 ≤ (natToHexStr (2 ^ 252 + 1)).length)
    ∧ ∃ r kb, (performKeyExchange "00:00:00.000" 23 5 (2 ^ 252) (2 ^ 252 + 1)
          sampleSession).2 = Except.ok r
      ∧ (performKeyExchange "00:00:00.000" 23 5 (2 ^ 252) (2 ^ 252 + 1)
          sampleSession).1.sessionKey = some kb
      ∧ r.sessionKeyHex = hexOfBytes kb
      ∧ (hexOfBytes kb).length = 64
      ∧ (performKeyExchange "00:00:00.000" 23 5 (2 ^ 252) (2 ^ 252 + 1)
          sampleSession).1.logs
          = sampleSession.logs ++ kxLogs "00:00:00.000" 23 5 (2 ^ 252) (2 ^ 252 + 1)
      ∧ ∀ e ∈ kxLogs "00:00:00.000" 23 5 (2 ^ 252) (2 ^ 252 + 1),
          ¬ (natToHexStr (2 ^ 252)).data <:+: e.data
          ∧ ¬ (natToHexStr (2 ^ 252 + 1)).data <:+: e.data
          ∧ ¬ (hexOfBytes kb).data <:+: e.data :=
  ⟨⟨by decide, by decide, by decide⟩,
   keyExchange_full_key_and_log_safety "00:00:00.000" 23 5 (2 ^ 252)
     (2 ^ 252 + 1) sampleSession (by decide) (by decide) (by decide)⟩

/-- Witness for C8: an empty `deviceId` is rejected without storing
anything, and a valid request returns the generated id. -/
theorem initSessionRoute_spec_witness :
    ((initSessionRoute "sid0" "t" 1 "" "arbiter" 10 []).1 = []
      ∧ (initSessionRoute "sid0" "t" 1 "" "arbiter" 10 []).2
          = .error (.validationError "deviceId is required and must be a string"))
    ∧ (initSessionRoute "sid0" "t" 1 "DEV-1" "arbiter" 10 []).2 = .ok "sid0" :=
  ⟨⟨(initSessionRoute_spec "sid0" "t" 1 "" "arbiter" 10 []).2.1 ⟨_, rfl⟩, rfl⟩,
   ((initSessionRoute_spec "sid0" "t" 1 "DEV-1" "arbiter" 10 []).2.2
     (by decide) (Or.inl rfl) (by decide) (by decide)).1⟩

end PufSim
